import Mathlib

/-!
Shallow embedding of the EduConnect matching engine
(`app/services/matching_service.py` and the endpoints that call it).

Modelling conventions:
* Python strings are modelled as `List Char`; only the ASCII fragment of
  `str.lower`, `str.strip`, `str.split` is modelled, which covers every
  comparison the service performs on its own constants.
* Python floats are modelled as `ℚ`; every constant appearing in the scoring
  rules (`0.35`, `50.0`, …) is exactly representable, so sub-score arithmetic
  is exact.
* `round(x, 2)` is modelled as `round (x * 100) / 100`.
* Human-readable reason strings are modelled by the inductive type `Reason`
  carrying the same data the f-strings interpolate (Python iterates a `set`
  in unspecified order, so the joined text itself is not deterministic).
-/

namespace EduConnect

/-! ### Character and token utilities (ASCII models of `str` methods) -/

def isSpaceChar (c : Char) : Bool :=
  c == ' ' || c == '\t' || c == '\n' || c == '\r'

def toLowerChar (c : Char) : Char :=
  if 'A' ≤ c ∧ c ≤ 'Z' then Char.ofNat (c.toNat + 32) else c

def lowerStr (s : List Char) : List Char := s.map toLowerChar

def trimLeft (s : List Char) : List Char := s.dropWhile isSpaceChar

def trim (s : List Char) : List Char :=
  ((trimLeft s).reverse.dropWhile isSpaceChar).reverse

/-- Model of Python `str.split(sep)` for a one-character separator:
always returns at least one (possibly empty) segment. -/
def splitOnChar (sep : Char) : List Char → List (List Char)
  | [] => [[]]
  | c :: cs =>
    let r := splitOnChar sep cs
    if c == sep then [] :: r
    else
      match r with
      | [] => [[c]]
      | h :: t => (c :: h) :: t

/-- Model of Python `str.split()` (no argument): split on whitespace runs,
dropping empty segments. -/
def splitWsAux : List Char → List Char → List (List Char)
  | acc, [] => if acc = [] then [] else [acc.reverse]
  | acc, c :: cs =>
    if isSpaceChar c then
      if acc = [] then splitWsAux [] cs else acc.reverse :: splitWsAux [] cs
    else
      splitWsAux (c :: acc) cs

def splitWs (s : List Char) : List (List Char) := splitWsAux [] s

def isDigitChar (c : Char) : Bool := '0' ≤ c && c ≤ '9'

def digitsToNat (s : List Char) : Nat :=
  s.foldl (fun n c => n * 10 + (c.toNat - '0'.toNat)) 0

/-- Model of Python `int(s)` on an already-stripped string: an optional sign
followed by at least one digit; anything else raises (modelled as `none`). -/
def pyInt (s : List Char) : Option Int :=
  match s with
  | '+' :: rest =>
    if rest ≠ [] ∧ rest.all isDigitChar then some (digitsToNat rest) else none
  | '-' :: rest =>
    if rest ≠ [] ∧ rest.all isDigitChar then some (-(digitsToNat rest : Int)) else none
  | _ =>
    if s ≠ [] ∧ s.all isDigitChar then some (digitsToNat s) else none

/-- Model of `re.search(r'\d+', s)`: the first maximal digit run, as a number. -/
def firstNum : List Char → Option Nat
  | [] => none
  | c :: cs =>
    if isDigitChar c then some (digitsToNat ((c :: cs).takeWhile isDigitChar))
    else firstNum cs

/-- Bool test for "`a` is a contiguous prefix of `b`" (structural). -/
def isPrefixB : List Char → List Char → Bool
  | [], _ => true
  | _ :: _, [] => false
  | a :: as, b :: bs => a == b && isPrefixB as bs

/-- Bool model of Python `a in b` on strings: contiguous substring. -/
def isSubstr (a b : List Char) : Bool :=
  match b with
  | [] => isPrefixB a []
  | _ :: bs => isPrefixB a b || isSubstr a bs

theorem isPrefixB_iff (a b : List Char) : isPrefixB a b = true ↔ a <+: b := by
  induction a generalizing b with
  | nil => simp [isPrefixB]
  | cons x xs ih =>
    cases b with
    | nil => simp [isPrefixB]
    | cons y ys =>
      simp only [isPrefixB, Bool.and_eq_true, beq_iff_eq, ih, List.cons_prefix_cons]

theorem isSubstr_iff (a b : List Char) : isSubstr a b = true ↔ a <:+: b := by
  induction b with
  | nil =>
    simp [isSubstr, isPrefixB_iff, List.prefix_nil, List.infix_nil]
  | cons y ys ih =>
    simp only [isSubstr, Bool.or_eq_true, isPrefixB_iff, ih]
    constructor
    · rintro (⟨t, ht⟩ | ⟨s, t, hst⟩)
      · exact ⟨[], t, by simpa using ht⟩
      · exact ⟨y :: s, t, by simpa using hst⟩
    · rintro ⟨s, t, hst⟩
      cases s with
      | nil => exact Or.inl ⟨t, by simpa using hst⟩
      | cons z zs =>
        right
        refine ⟨zs, t, ?_⟩
        simpa using congrArg List.tail hst

/-! ### Normalizer (`parse_comma_separated`, `parse_years_experience`) -/

/-- A stored field that is either SQL NULL, a VARCHAR, or a true array
(the representation mismatch the Normalizer reconciles). -/
inductive PyStrList where
  | null
  | str (s : List Char)
  | list (l : List (List Char))
deriving DecidableEq

/-- A stored experience field: NULL, an integer, or free text. -/
inductive PyStrInt where
  | null
  | int (n : Int)
  | str (s : List Char)
deriving DecidableEq

/-- `parse_comma_separated`: a true list keeps its truthy (non-empty) elements,
each stripped; a non-empty string is split on commas, each segment stripped,
segments that strip to empty dropped; anything else gives `[]`. -/
def parse_comma_separated : PyStrList → List (List Char)
  | .list l => (l.filter (fun v => !(v == []))).map trim
  | .str s =>
    if s = [] then []
    else ((splitOnChar ',' s).map trim).filter (fun t => !(t == []))
  | .null => []

/-- `parse_years_experience`: an int passes through, a string yields its first
digit run (`re.search(r'\d+')`), anything else gives `0`. -/
def parse_years_experience : PyStrInt → Int
  | .null => 0
  | .int n => n
  | .str s =>
    match firstNum s with
    | some n => (n : Int)
    | none => 0

/-! ### Data model -/

/-- Teacher row, restricted to the columns the matching service, the signup
endpoint and the access gate read. -/
structure Teacher where
  id : Nat
  user_id : List Char
  preferred_location : PyStrList
  subject_specialty : PyStrList
  preferred_age_group : PyStrList
  years_experience : PyStrInt
  has_chinese : Bool
  has_paid : Bool
deriving DecidableEq

/-- School row (internal-school opportunity), restricted to the columns the
matching service and the aggregator read.  `name` is carried to state the
aggregator's anonymity property; the service never reads it. -/
structure School where
  id : Nat
  name : List Char
  city : List Char
  province : List Char
  subjects_needed : List (List Char)
  age_groups : List (List Char)
  experience_required : List Char
  chinese_required : Bool
  is_active : Bool
  school_type : List Char
  salary_range : List Char
deriving DecidableEq

/-- Job row (school-managed or externally aggregated posting), restricted to
the columns the matching service and the aggregator read; the remaining
pass-through display columns of the `jobs` table are not modelled because no
logic branches on them. -/
structure Job where
  id : Nat
  city : List Char
  province : List Char
  subjects : List (List Char)
  age_groups : List (List Char)
  experience : List Char
  chinese_required : Bool
  is_active : Bool
  source : List Char
  title : List Char
  company : List Char
  salary : List Char
  school_type : List Char
  external_url : List Char
  application_deadline : Option (List Char)
deriving DecidableEq

/-- A human-readable match reason, carrying the data the Python f-strings
interpolate. -/
inductive Reason where
  | location (city : List Char)
  | subject (subjects : List (List Char))
  | ageGroup (ages : List (List Char))
  | experience (years : Int)
  | chinese
deriving DecidableEq

/-! ### Scoring function -/

def WEIGHT_LOCATION : ℚ := 35 / 100
def WEIGHT_SUBJECT : ℚ := 25 / 100
def WEIGHT_AGE_GROUP : ℚ := 20 / 100
def WEIGHT_EXPERIENCE : ℚ := 15 / 100
def WEIGHT_CHINESE : ℚ := 5 / 100

/-- `calculate_location_score`. -/
def calculate_location_score (teacher_locations : List (List Char))
    (school_city school_province : List Char) : ℚ :=
  if teacher_locations = [] then 50
  else if teacher_locations.any (fun l => lowerStr l == lowerStr school_city) then 100
  else if teacher_locations.any (fun l =>
      isSubstr (lowerStr l) (lowerStr school_province) ||
      isSubstr (lowerStr school_province) (lowerStr l)) then 70
  else 0

/-- The lower-cased set intersection used by the subject and age-group scores;
Python sets are modelled by deduplicated lists. -/
def lowerInter (ts ss : List (List Char)) : List (List Char) :=
  ((ts.map lowerStr).dedup).filter (fun x => (ss.map lowerStr).dedup.contains x)

/-- `calculate_subject_score`. -/
def calculate_subject_score (teacher_subjects school_subjects : List (List Char)) : ℚ :=
  if teacher_subjects = [] ∨ school_subjects = [] then 50
  else
    let overlap := (lowerInter teacher_subjects school_subjects).length
    if overlap = 0 then 0
    else min ((overlap : ℚ) / ((school_subjects.map lowerStr).dedup).length * 100) 100

/-- `calculate_age_group_score` (same logic as the subject score, kept as its
own definition because the source duplicates it). -/
def calculate_age_group_score (teacher_age_groups school_age_groups : List (List Char)) : ℚ :=
  if teacher_age_groups = [] ∨ school_age_groups = [] then 50
  else
    let overlap := (lowerInter teacher_age_groups school_age_groups).length
    if overlap = 0 then 0
    else min ((overlap : ℚ) / ((school_age_groups.map lowerStr).dedup).length * 100) 100

/-- The requirement-text parse embedded in `calculate_experience_score`:
`some (min_years, max_years)` when a bound pair is extracted, `none` when the
bare `except`/unknown-format paths make the score neutral.  The input is
already lower-cased by the caller. -/
def parseExpReq (s : List Char) : Option (Int × Int) :=
  if isSubstr "5+".data s || isSubstr "5 or more".data s then some (5, 999)
  else if s.contains '-' then
    match splitOnChar '-' s with
    | p0 :: p1 :: _ =>
      match pyInt (trim p0), (splitWs p1).head? with
      | some mn, some w =>
        match pyInt (trim w) with
        | some mx => some (mn, mx)
        | none => none
      | _, _ => none
    | _ => none
  else none

/-- `calculate_experience_score`. -/
def calculate_experience_score (teacher_years : Option Int) (school_required : List Char) : ℚ :=
  match teacher_years with
  | none => 50
  | some y =>
    if school_required = [] then 100
    else
      match parseExpReq (lowerStr school_required) with
      | none => 50
      | some (mn, mx) =>
        if mn ≤ y ∧ y ≤ mx then 100
        else if (y - mn).natAbs ≤ 1 then 80
        else if (y - mx).natAbs ≤ 1 then 80
        else if y > mx then max ((70 : ℚ) - ((y - mx : Int) : ℚ) * 5) 30
        else if y < mn then max ((50 : ℚ) - ((mn - y : Int) : ℚ) * 10) 0
        else 50

/-- `calculate_chinese_score`. -/
def calculate_chinese_score (teacher_has_chinese school_requires_chinese : Bool) : ℚ :=
  if school_requires_chinese then
    if teacher_has_chinese then 100 else 0
  else
    if teacher_has_chinese then 100 else 90

/-- `round(x, 2)`. -/
def round2 (x : ℚ) : ℚ := (round (x * 100) : ℚ) / 100

/-- `calculate_match_score` (teacher vs internal school). -/
def calculate_match_score (teacher : Teacher) (school : School) : ℚ × List Reason :=
  let teacher_locations := parse_comma_separated teacher.preferred_location
  let teacher_subjects := parse_comma_separated teacher.subject_specialty
  let teacher_age_groups := parse_comma_separated teacher.preferred_age_group
  let teacher_years := parse_years_experience teacher.years_experience
  let location_score := calculate_location_score teacher_locations school.city school.province
  let subject_score := calculate_subject_score teacher_subjects school.subjects_needed
  let age_group_score := calculate_age_group_score teacher_age_groups school.age_groups
  let experience_score := calculate_experience_score (some teacher_years) school.experience_required
  let chinese_score := calculate_chinese_score teacher.has_chinese school.chinese_required
  let total_score :=
    location_score * WEIGHT_LOCATION + subject_score * WEIGHT_SUBJECT +
    age_group_score * WEIGHT_AGE_GROUP + experience_score * WEIGHT_EXPERIENCE +
    chinese_score * WEIGHT_CHINESE
  let reasons :=
    (if 70 ≤ location_score then [Reason.location school.city] else []) ++
    (if 70 ≤ subject_score then [Reason.subject (lowerInter teacher_subjects school.subjects_needed)] else []) ++
    (if 70 ≤ age_group_score then [Reason.ageGroup (lowerInter teacher_age_groups school.age_groups)] else []) ++
    (if 80 ≤ experience_score then [Reason.experience teacher_years] else []) ++
    (if chinese_score = 100 ∧ school.chinese_required then [Reason.chinese] else [])
  (round2 total_score, reasons)

/-- `calculate_job_match_score` (teacher vs job posting): same weights, job
column names, and extra non-emptiness guards on the subject/age reasons. -/
def calculate_job_match_score (teacher : Teacher) (job : Job) : ℚ × List Reason :=
  let teacher_locations := parse_comma_separated teacher.preferred_location
  let teacher_subjects := parse_comma_separated teacher.subject_specialty
  let teacher_age_groups := parse_comma_separated teacher.preferred_age_group
  let teacher_years := parse_years_experience teacher.years_experience
  let location_score := calculate_location_score teacher_locations job.city job.province
  let subject_score := calculate_subject_score teacher_subjects job.subjects
  let age_group_score := calculate_age_group_score teacher_age_groups job.age_groups
  let experience_score := calculate_experience_score (some teacher_years) job.experience
  let chinese_score := calculate_chinese_score teacher.has_chinese job.chinese_required
  let total_score :=
    location_score * WEIGHT_LOCATION + subject_score * WEIGHT_SUBJECT +
    age_group_score * WEIGHT_AGE_GROUP + experience_score * WEIGHT_EXPERIENCE +
    chinese_score * WEIGHT_CHINESE
  let city_display := if job.city = [] then (if job.province = [] then "China".data else job.province) else job.city
  let reasons :=
    (if 70 ≤ location_score then [Reason.location city_display] else []) ++
    (if 70 ≤ subject_score ∧ teacher_subjects ≠ [] ∧ job.subjects ≠ [] then
      [Reason.subject (lowerInter teacher_subjects job.subjects)] else []) ++
    (if 70 ≤ age_group_score ∧ teacher_age_groups ≠ [] ∧ job.age_groups ≠ [] then
      [Reason.ageGroup (lowerInter teacher_age_groups job.age_groups)] else []) ++
    (if 80 ≤ experience_score then [Reason.experience teacher_years] else []) ++
    (if chinese_score = 100 ∧ job.chinese_required then [Reason.chinese] else [])
  (round2 total_score, reasons)

/-! ### Basic bounds on the sub-scores and the composite -/

theorem round_mono_q {a b : ℚ} (h : a ≤ b) : round a ≤ round b := by
  rw [round_eq, round_eq]
  exact Int.floor_le_floor (by linarith)

theorem round2_bounds {x : ℚ} (h0 : 0 ≤ x) (h1 : x ≤ 100) :
    0 ≤ round2 x ∧ round2 x ≤ 100 := by
  unfold round2
  have hl : (0 : ℤ) ≤ round (x * 100) := by
    have h := round_mono_q (a := 0) (b := x * 100) (by nlinarith)
    simpa using h
  have hu : round (x * 100) ≤ 10000 := by
    have hc : x * 100 ≤ ((10000 : ℤ) : ℚ) := by push_cast; nlinarith
    have h := round_mono_q hc
    simpa using h
  constructor
  · exact div_nonneg (by exact_mod_cast hl) (by norm_num)
  · rw [div_le_iff (by norm_num)]
    have hq : ((round (x * 100) : ℤ) : ℚ) ≤ 10000 := by exact_mod_cast hu
    linarith

theorem calculate_location_score_bounds (ls : List (List Char)) (c p : List Char) :
    0 ≤ calculate_location_score ls c p ∧ calculate_location_score ls c p ≤ 100 := by
  unfold calculate_location_score
  split_ifs <;> norm_num

theorem calculate_subject_score_bounds (a b : List (List Char)) :
    0 ≤ calculate_subject_score a b ∧ calculate_subject_score a b ≤ 100 := by
  unfold calculate_subject_score
  split_ifs with h1
  · norm_num
  · dsimp only
    split_ifs with h2
    · norm_num
    · exact ⟨le_min (by positivity) (by norm_num), min_le_right _ _⟩

theorem calculate_age_group_score_bounds (a b : List (List Char)) :
    0 ≤ calculate_age_group_score a b ∧ calculate_age_group_score a b ≤ 100 := by
  unfold calculate_age_group_score
  split_ifs with h1
  · norm_num
  · dsimp only
    split_ifs with h2
    · norm_num
    · exact ⟨le_min (by positivity) (by norm_num), min_le_right _ _⟩

theorem calculate_experience_score_bounds (y : Option Int) (r : List Char) :
    0 ≤ calculate_experience_score y r ∧ calculate_experience_score y r ≤ 100 := by
  unfold calculate_experience_score
  cases y with
  | none => norm_num
  | some y =>
    split_ifs with h0
    · norm_num
    · cases hp : parseExpReq (lowerStr r) with
      | none => norm_num
      | some p =>
        obtain ⟨mn, mx⟩ := p
        dsimp only
        split_ifs with h1 h2 h3 h4 h5
        · norm_num
        · norm_num
        · norm_num
        · have he : (1 : ℚ) ≤ ((y - mx : Int) : ℚ) := by
            have hi : (1 : Int) ≤ y - mx := by omega
            exact_mod_cast hi
          constructor
          · exact le_trans (by norm_num) (le_max_right _ _)
          · exact max_le (by linarith) (by norm_num)
        · have hs : (1 : ℚ) ≤ ((mn - y : Int) : ℚ) := by
            have : (1 : Int) ≤ mn - y := by omega
            exact_mod_cast this
          constructor
          · exact le_max_right _ _
          · exact max_le (by linarith) (by norm_num)
        · norm_num

theorem calculate_chinese_score_bounds (a b : Bool) :
    0 ≤ calculate_chinese_score a b ∧ calculate_chinese_score a b ≤ 100 := by
  unfold calculate_chinese_score
  split_ifs <;> norm_num

/-- The composite score of a (teacher, school) pair always lies in [0, 100]
(up to the 2-decimal rounding, which cannot leave the interval since the
endpoints are integers). -/
theorem calculate_match_score_bounds (t : Teacher) (s : School) :
    0 ≤ (calculate_match_score t s).1 ∧ (calculate_match_score t s).1 ≤ 100 := by
  obtain ⟨l0, l1⟩ := calculate_location_score_bounds (parse_comma_separated t.preferred_location) s.city s.province
  obtain ⟨s0, s1⟩ := calculate_subject_score_bounds (parse_comma_separated t.subject_specialty) s.subjects_needed
  obtain ⟨a0, a1⟩ := calculate_age_group_score_bounds (parse_comma_separated t.preferred_age_group) s.age_groups
  obtain ⟨e0, e1⟩ := calculate_experience_score_bounds (some (parse_years_experience t.years_experience)) s.experience_required
  obtain ⟨c0, c1⟩ := calculate_chinese_score_bounds t.has_chinese s.chinese_required
  show 0 ≤ round2
    (calculate_location_score (parse_comma_separated t.preferred_location) s.city s.province * WEIGHT_LOCATION +
      calculate_subject_score (parse_comma_separated t.subject_specialty) s.subjects_needed * WEIGHT_SUBJECT +
      calculate_age_group_score (parse_comma_separated t.preferred_age_group) s.age_groups * WEIGHT_AGE_GROUP +
      calculate_experience_score (some (parse_years_experience t.years_experience)) s.experience_required * WEIGHT_EXPERIENCE +
      calculate_chinese_score t.has_chinese s.chinese_required * WEIGHT_CHINESE) ∧ _ ≤ 100
  unfold WEIGHT_LOCATION WEIGHT_SUBJECT WEIGHT_AGE_GROUP WEIGHT_EXPERIENCE WEIGHT_CHINESE
  exact round2_bounds (by linarith) (by linarith)

/-- Same bounds for the job variant of the composite score. -/
theorem calculate_job_match_score_bounds (t : Teacher) (j : Job) :
    0 ≤ (calculate_job_match_score t j).1 ∧ (calculate_job_match_score t j).1 ≤ 100 := by
  obtain ⟨l0, l1⟩ := calculate_location_score_bounds (parse_comma_separated t.preferred_location) j.city j.province
  obtain ⟨s0, s1⟩ := calculate_subject_score_bounds (parse_comma_separated t.subject_specialty) j.subjects
  obtain ⟨a0, a1⟩ := calculate_age_group_score_bounds (parse_comma_separated t.preferred_age_group) j.age_groups
  obtain ⟨e0, e1⟩ := calculate_experience_score_bounds (some (parse_years_experience t.years_experience)) j.experience
  obtain ⟨c0, c1⟩ := calculate_chinese_score_bounds t.has_chinese j.chinese_required
  show 0 ≤ round2
    (calculate_location_score (parse_comma_separated t.preferred_location) j.city j.province * WEIGHT_LOCATION +
      calculate_subject_score (parse_comma_separated t.subject_specialty) j.subjects * WEIGHT_SUBJECT +
      calculate_age_group_score (parse_comma_separated t.preferred_age_group) j.age_groups * WEIGHT_AGE_GROUP +
      calculate_experience_score (some (parse_years_experience t.years_experience)) j.experience * WEIGHT_EXPERIENCE +
      calculate_chinese_score t.has_chinese j.chinese_required * WEIGHT_CHINESE) ∧ _ ≤ 100
  unfold WEIGHT_LOCATION WEIGHT_SUBJECT WEIGHT_AGE_GROUP WEIGHT_EXPERIENCE WEIGHT_CHINESE
  exact round2_bounds (by linarith) (by linarith)

/-! ### Trim lemmas -/

theorem dropWhile_idem (p : Char → Bool) (l : List Char) :
    (l.dropWhile p).dropWhile p = l.dropWhile p := by
  induction l with
  | nil => rfl
  | cons c cs ih =>
    by_cases h : p c
    · simp [List.dropWhile_cons, h, ih]
    · simp [List.dropWhile_cons, h]

theorem dropWhile_append_last {p : Char → Bool} {c : Char} (hc : p c = false) (xs : List Char) :
    (xs ++ [c]).dropWhile p = xs.dropWhile p ++ [c] := by
  induction xs with
  | nil => simp [List.dropWhile_cons, hc]
  | cons x xs ih =>
    by_cases h : p x
    · simp [List.dropWhile_cons, h, ih]
    · simp [List.dropWhile_cons, h]

theorem length_dropWhile_le (p : Char → Bool) (l : List Char) :
    (l.dropWhile p).length ≤ l.length := by
  induction l with
  | nil => simp
  | cons c cs ih =>
    by_cases h : p c <;> simp [List.dropWhile_cons, h] <;> omega

def trimRight (s : List Char) : List Char := (s.reverse.dropWhile isSpaceChar).reverse

theorem trim_eq_trimRight_trimLeft (s : List Char) : trim s = trimRight (trimLeft s) := rfl

theorem trimRight_idem (s : List Char) : trimRight (trimRight s) = trimRight s := by
  unfold trimRight
  rw [List.reverse_reverse, dropWhile_idem]

theorem trimLeft_trimRight {r : List Char} (hr : trimLeft r = r) :
    trimLeft (trimRight r) = trimRight r := by
  cases r with
  | nil => rfl
  | cons c cs =>
    have hc : isSpaceChar c = false := by
      by_cases h : isSpaceChar c
      · exfalso
        unfold trimLeft at hr
        rw [List.dropWhile_cons, if_pos h] at hr
        have hlen := congrArg List.length hr
        have hle := length_dropWhile_le isSpaceChar cs
        simp at hlen
        omega
      · simpa using h
    have hrw : trimRight (c :: cs) = c :: trimRight cs := by
      unfold trimRight
      rw [List.reverse_cons, dropWhile_append_last hc, List.reverse_append]
      simp
    rw [hrw]
    unfold trimLeft
    rw [List.dropWhile_cons, if_neg (by simp [hc])]

theorem trim_idem (s : List Char) : trim (trim s) = trim s := by
  have h1 : trimLeft (trim s) = trim s :=
    trimLeft_trimRight (r := trimLeft s) (dropWhile_idem _ _)
  rw [trim_eq_trimRight_trimLeft, h1, trim_eq_trimRight_trimLeft, trimRight_idem]

/-! ### Claim C7 — the token-list parse -/

/-- Modelled from the spec's words, for comparison with `parse_comma_separated`
under claim C7: tokens both trimmed and case-normalized. -/
def parse_tokens_specwords : PyStrList → List (List Char)
  | .list l => (l.filter (fun v => !(v == []))).map (fun v => lowerStr (trim v))
  | .str s =>
    if s = [] then []
    else ((splitOnChar ',' s).map (fun v => lowerStr (trim v))).filter (fun t => !(t == []))
  | .null => []

/-- C7 counterexample: the parser trims tokens but does not case-normalize
them, so on input "Math, Science" the claimed (trimmed, case-normalized)
token list differs from what the code returns. -/
theorem claim_C7_counterexample :
    parse_comma_separated (.str "Math, Science".data) = ["Math".data, "Science".data] ∧
    parse_tokens_specwords (.str "Math, Science".data) = ["math".data, "science".data] ∧
    parse_comma_separated (.str "Math, Science".data) ≠
      parse_tokens_specwords (.str "Math, Science".data) := by
  decide

/-- C7 (amended): `parse_comma_separated` maps absent/empty input to `[]`; a
string is split on commas into stripped segments, in order, dropping segments
that strip to empty; a true list keeps its non-empty elements, stripped, in
order.  Tokens keep their original case (case-folding happens later, inside
the scoring functions), string-derived tokens are non-empty and strip-fixed,
and list-derived tokens are strip-fixed. -/
theorem claim_C7 :
    parse_comma_separated .null = [] ∧
    parse_comma_separated (.str []) = [] ∧
    (∀ s, parse_comma_separated (.str s) =
      ((splitOnChar ',' s).map trim).filter (fun t => !(t == []))) ∧
    (∀ l, parse_comma_separated (.list l) = (l.filter (fun v => !(v == []))).map trim) ∧
    (∀ s t, t ∈ parse_comma_separated (.str s) → t ≠ [] ∧ trim t = t) ∧
    (∀ l t, t ∈ parse_comma_separated (.list l) → trim t = t) := by
  refine ⟨rfl, rfl, ?_, fun l => rfl, ?_, ?_⟩
  · intro s
    by_cases h : s = []
    · subst h; decide
    · simp [parse_comma_separated, h]
  · intro s t ht
    by_cases h : s = []
    · simp [parse_comma_separated, h] at ht
    · simp only [parse_comma_separated, if_neg h, List.mem_filter, List.mem_map] at ht
      obtain ⟨⟨seg, _, rfl⟩, hne⟩ := ht
      refine ⟨by simpa using hne, trim_idem seg⟩
  · intro l t ht
    simp only [parse_comma_separated, List.mem_map] at ht
    obtain ⟨v, _, rfl⟩ := ht
    exact trim_idem v

/-- Closed witness for C7's conditional parts, at the input " Art ,b". -/
theorem claim_C7_witness :
    "Art".data ≠ [] ∧ trim "Art".data = "Art".data :=
  claim_C7.2.2.2.2.1 " Art ,b".data "Art".data (by decide)

/-! ### Claim C5 — the location sub-score -/

/-- C5: the location sub-score is 50 when the candidate has no location
tokens; otherwise 100 on a case-insensitive exact city match; otherwise 70
when some token and the province are case-insensitive substrings of one
another (either direction); otherwise 0. -/
theorem claim_C5 :
    ∀ (locs : List (List Char)) (city prov : List Char),
      (locs = [] → calculate_location_score locs city prov = 50) ∧
      (locs ≠ [] → (∃ l ∈ locs, lowerStr l = lowerStr city) →
        calculate_location_score locs city prov = 100) ∧
      (locs ≠ [] → (¬∃ l ∈ locs, lowerStr l = lowerStr city) →
        (∃ l ∈ locs, lowerStr l <:+: lowerStr prov ∨ lowerStr prov <:+: lowerStr l) →
        calculate_location_score locs city prov = 70) ∧
      (locs ≠ [] → (¬∃ l ∈ locs, lowerStr l = lowerStr city) →
        (¬∃ l ∈ locs, lowerStr l <:+: lowerStr prov ∨ lowerStr prov <:+: lowerStr l) →
        calculate_location_score locs city prov = 0) := by
  intro locs city prov
  refine ⟨fun h => by simp [calculate_location_score, h], ?_, ?_, ?_⟩
  · intro hne hex
    have hb : (locs.any fun l => lowerStr l == lowerStr city) = true := by
      simpa only [List.any_eq_true, beq_iff_eq] using hex
    simp [calculate_location_score, hne, hb]
  · intro hne hnex hsub
    have hb1 : (locs.any fun l => lowerStr l == lowerStr city) = false := by
      rw [Bool.eq_false_iff]
      simpa only [ne_eq, List.any_eq_true, beq_iff_eq] using hnex
    have hb2 : (locs.any fun l =>
        isSubstr (lowerStr l) (lowerStr prov) || isSubstr (lowerStr prov) (lowerStr l)) = true := by
      simpa only [List.any_eq_true, Bool.or_eq_true, isSubstr_iff] using hsub
    simp [calculate_location_score, hne, hb1, hb2]
  · intro hne hnex hnsub
    have hb1 : (locs.any fun l => lowerStr l == lowerStr city) = false := by
      rw [Bool.eq_false_iff]
      simpa only [ne_eq, List.any_eq_true, beq_iff_eq] using hnex
    have hb2 : (locs.any fun l =>
        isSubstr (lowerStr l) (lowerStr prov) || isSubstr (lowerStr prov) (lowerStr l)) = false := by
      rw [Bool.eq_false_iff]
      simpa only [ne_eq, List.any_eq_true, Bool.or_eq_true, isSubstr_iff] using hnsub
    simp [calculate_location_score, hne, hb1, hb2]

/-- Closed witness for C5: candidate token "beijing" against city "Beijing"
scores 100 (spec Scenario A's sub-score part). -/
theorem claim_C5_witness :
    calculate_location_score ["beijing".data] "Beijing".data "Hebei".data = 100 :=
  (claim_C5 ["beijing".data] "Beijing".data "Hebei".data).2.1 (by decide)
    ⟨"beijing".data, by decide, by decide⟩

/-! ### Claim C4 — the experience sub-score -/

theorem exp_score_parsed {r : List Char} {mn mx : Int} (hr : r ≠ [])
    (hp : parseExpReq (lowerStr r) = some (mn, mx)) (y : Int) :
    calculate_experience_score (some y) r =
      if mn ≤ y ∧ y ≤ mx then 100
      else if (y - mn).natAbs ≤ 1 then 80
      else if (y - mx).natAbs ≤ 1 then 80
      else if y > mx then max ((70 : ℚ) - ((y - mx : Int) : ℚ) * 5) 30
      else if y < mn then max ((50 : ℚ) - ((mn - y : Int) : ℚ) * 10) 0
      else 50 := by
  simp [calculate_experience_score, hr, hp]

/-- C4: for a parsed candidate experience `y` and requirement text `r`, the
experience sub-score is: 100 when `r` is empty; 100 when `y` is within the
parsed inclusive range; 80 when `y` is exactly one year outside either bound;
`max (70 - 5e) 30` when `y` exceeds the maximum by `e ≥ 2`; `max (50 - 10s) 0`
when `y` is under the minimum by `s ≥ 2`; neutral 50 when `r` is non-empty but
unparsable.  In particular "3-5 years" gives 100 at 3 and 5 and 80 at 2 and 6,
and "5+ years" gives 30 at 3. -/
theorem claim_C4 :
    (∀ (y : Nat) (r : List Char),
      (r = [] → calculate_experience_score (some (y : Int)) r = 100) ∧
      (r ≠ [] → parseExpReq (lowerStr r) = none →
        calculate_experience_score (some (y : Int)) r = 50) ∧
      (∀ mn mx : Int, parseExpReq (lowerStr r) = some (mn, mx) → mn ≤ mx →
        ((mn ≤ (y : Int) ∧ (y : Int) ≤ mx →
            calculate_experience_score (some (y : Int)) r = 100) ∧
         (((y : Int) = mx + 1 ∨ (y : Int) + 1 = mn) →
            calculate_experience_score (some (y : Int)) r = 80) ∧
         (∀ e : Nat, 2 ≤ e → (y : Int) = mx + e →
            calculate_experience_score (some (y : Int)) r = max ((70 : ℚ) - 5 * e) 30) ∧
         (∀ s : Nat, 2 ≤ s → (y : Int) = mn - s →
            calculate_experience_score (some (y : Int)) r = max ((50 : ℚ) - 10 * s) 0)))) ∧
    calculate_experience_score (some 3) "3-5 years".data = 100 ∧
    calculate_experience_score (some 5) "3-5 years".data = 100 ∧
    calculate_experience_score (some 2) "3-5 years".data = 80 ∧
    calculate_experience_score (some 6) "3-5 years".data = 80 ∧
    calculate_experience_score (some 3) "5+ years".data = 30 := by
  have h35 : parseExpReq (lowerStr "3-5 years".data) = some (3, 5) := by decide
  have h5p : parseExpReq (lowerStr "5+ years".data) = some (5, 999) := by decide
  refine ⟨?_, ?_, ?_, ?_, ?_, ?_⟩
  · intro y r
    refine ⟨fun hr => by simp [calculate_experience_score, hr], ?_, ?_⟩
    · intro hr hp
      simp [calculate_experience_score, hr, hp]
    · intro mn mx hp hle
      have hr : r ≠ [] := by
        rintro rfl
        rw [show lowerStr [] = [] from rfl] at hp
        rw [show parseExpReq [] = none from rfl] at hp
        exact Option.noConfusion hp
      refine ⟨?_, ?_, ?_, ?_⟩
      · rintro ⟨h1, h2⟩
        rw [exp_score_parsed hr hp, if_pos ⟨h1, h2⟩]
      · intro h
        rw [exp_score_parsed hr hp]
        rcases h with h | h
        · by_cases hmn : ((y : Int) - mn).natAbs ≤ 1
          · rw [if_neg (by omega), if_pos hmn]
          · rw [if_neg (by omega), if_neg hmn, if_pos (by omega)]
        · rw [if_neg (by omega), if_pos (by omega)]
      · intro e he hye
        rw [exp_score_parsed hr hp,
          if_neg (by omega), if_neg (by omega), if_neg (by omega), if_pos (by omega)]
        have hyx : (y : Int) - mx = (e : Int) := by omega
        rw [hyx]
        push_cast
        ring_nf
      · intro s hs hys
        rw [exp_score_parsed hr hp,
          if_neg (by omega), if_neg (by omega), if_neg (by omega), if_neg (by omega),
          if_pos (by omega)]
        have hyx : mn - (y : Int) = (s : Int) := by omega
        rw [hyx]
        push_cast
        ring_nf
  · simp [calculate_experience_score, h35]
  · simp [calculate_experience_score, h35]
  · simp [calculate_experience_score, h35]
  · simp [calculate_experience_score, h35]
  · simp [calculate_experience_score, h5p]
    norm_num

/-- Closed witness for C4's conditional parts: requirement "3-5 years" parses
to the range (3, 5) and a 7-year candidate (2 over the maximum) scores
`max (70 - 5*2) 30 = 60`. -/
theorem claim_C4_witness :
    calculate_experience_score (some (7 : Nat)) "3-5 years".data = max ((70 : ℚ) - 5 * 2) 30 :=
  ((claim_C4.1 7 "3-5 years".data).2.2 3 5 (by decide) (by decide)).2.2.1 2 (by decide) (by decide)

/-! ### Match store (`teacher_school_matches` and its neighbours) -/

/-- Row of `teacher_school_matches`.  `school_id`/`job_id` are the two
nullable opportunity references; `is_submitted` and `role_name` are written by
the application workflow, not by the matching runs. -/
structure MatchRecord where
  id : Nat
  teacher_id : Nat
  school_id : Option Nat
  job_id : Option Nat
  match_score : ℚ
  match_reasons : List Reason
  is_submitted : Bool
  role_name : Option (List Char)
deriving DecidableEq

/-- Row of `teacher_school_applications`, restricted to the columns the
aggregator joins (`expiry_date`, `role_name`), keyed by the match row. -/
structure ApplicationRow where
  match_id : Nat
  expiry_date : Option (List Char)
  role_name : Option (List Char)
deriving DecidableEq

/-- The relational store.  `next_id` models the serial primary key of
`teacher_school_matches`. -/
structure DB where
  teachers : List Teacher
  schools : List School
  jobs : List Job
  teacher_school_matches : List MatchRecord
  applications : List ApplicationRow
  next_id : Nat
deriving DecidableEq

def matchesSchoolPair (tid sid : Nat) (m : MatchRecord) : Bool :=
  m.teacher_id == tid && m.school_id == some sid

def matchesJobPair (tid jid : Nat) (m : MatchRecord) : Bool :=
  m.teacher_id == tid && m.job_id == some jid

def newSchoolMatch (nid tid sid : Nat) (score : ℚ) (reasons : List Reason) : MatchRecord :=
  { id := nid, teacher_id := tid, school_id := some sid, job_id := none,
    match_score := score, match_reasons := reasons, is_submitted := false, role_name := none }

def newJobMatch (nid tid jid : Nat) (score : ℚ) (reasons : List Reason) : MatchRecord :=
  { id := nid, teacher_id := tid, school_id := none, job_id := some jid,
    match_score := score, match_reasons := reasons, is_submitted := false, role_name := none }

/-- Stable insertion into a score-descending list (model of Python's stable
`list.sort(key=..., reverse=True)`). -/
def insertByScoreDesc {α : Type} (score : α → ℚ) (x : α) : List α → List α
  | [] => [x]
  | y :: ys => if score y < score x then x :: y :: ys else y :: insertByScoreDesc score x ys

def sortByScoreDesc {α : Type} (score : α → ℚ) : List α → List α
  | [] => []
  | x :: xs => insertByScoreDesc score x (sortByScoreDesc score xs)

/-! ### The four recomputation runs -/

/-- `run_matching_for_teacher`: candidate-centric full recompute.  Looks the
teacher up (`ValueError` modelled as `none`), scores every active school,
keeps the pairs clearing `min_score` sorted by score descending, deletes ALL
existing match rows of the teacher (`delete().eq("teacher_id", ...)`, with no
filter on the opportunity kind), and inserts the qualifying school pairs. -/
def run_matching_for_teacher (db : DB) (teacher_id : Nat) (min_score : ℚ) : Option DB :=
  match db.teachers.find? (fun t => t.id == teacher_id) with
  | none => none
  | some teacher =>
    let schools := db.schools.filter (fun s => s.is_active)
    let qualifying := (schools.map (fun s => (s, calculate_match_score teacher s))).filter
      (fun p => min_score ≤ p.2.1)
    let sorted := sortByScoreDesc (fun p => p.2.1) qualifying
    let kept := db.teacher_school_matches.filter (fun m => !(m.teacher_id == teacher_id))
    let inserted := sorted.foldl
      (fun (st : List MatchRecord × Nat) p =>
        (st.1 ++ [newSchoolMatch st.2 teacher_id p.1.id p.2.1 p.2.2], st.2 + 1))
      (kept, db.next_id)
    some { db with teacher_school_matches := inserted.1, next_id := inserted.2 }

/-- Supabase `upsert(..., on_conflict="teacher_id,school_id")`: rewrite the
score and reasons of the row with the same natural key (columns absent from
the payload keep their old values), or insert a fresh row. -/
def schoolUpsert (ms : List MatchRecord) (nid tid sid : Nat) (score : ℚ)
    (reasons : List Reason) : List MatchRecord × Nat :=
  if ms.any (matchesSchoolPair tid sid) then
    (ms.map (fun m => if matchesSchoolPair tid sid m then
      { m with match_score := score, match_reasons := reasons } else m), nid)
  else
    (ms ++ [newSchoolMatch nid tid sid score reasons], nid + 1)

/-- One iteration of `run_matching_for_school`'s loop: upsert the pair when it
clears the threshold, delete it otherwise.  State: (matches, next id, count). -/
def schoolStep (school : School) (sid : Nat) (min_score : ℚ)
    (st : List MatchRecord × Nat × Nat) (t : Teacher) : List MatchRecord × Nat × Nat :=
  let r := calculate_match_score t school
  if min_score ≤ r.1 then
    let u := schoolUpsert st.1 st.2.1 t.id sid r.1 r.2
    (u.1, u.2, st.2.2 + 1)
  else
    (st.1.filter (fun m => !(matchesSchoolPair t.id sid m)), st.2.1, st.2.2)

/-- `run_matching_for_school`: opportunity-centric incremental recompute for
one active school against every teacher. -/
def run_matching_for_school (db : DB) (school_id : Nat) (min_score : ℚ) : DB × Nat :=
  match db.schools.find? (fun s => s.id == school_id && s.is_active) with
  | none => (db, 0)
  | some school =>
    let st := db.teachers.foldl (schoolStep school school_id min_score) (db.teacher_school_matches, db.next_id, 0)
    ({ db with teacher_school_matches := st.1, next_id := st.2.1 }, st.2.2)

/-- The job runs' hand-rolled upsert: select the first existing row for the
(teacher, job) pair and update its score/reasons by row id, else insert. -/
def jobUpsert (ms : List MatchRecord) (nid tid jid : Nat) (score : ℚ)
    (reasons : List Reason) : List MatchRecord × Nat :=
  match ms.find? (matchesJobPair tid jid) with
  | some ex =>
    (ms.map (fun m => if m.id == ex.id then
      { m with match_score := score, match_reasons := reasons } else m), nid)
  | none => (ms ++ [newJobMatch nid tid jid score reasons], nid + 1)

/-- One iteration of `run_matching_for_job`'s loop over teachers. -/
def jobStepTeacher (job : Job) (jid : Nat) (min_score : ℚ)
    (st : List MatchRecord × Nat × Nat) (t : Teacher) : List MatchRecord × Nat × Nat :=
  let r := calculate_job_match_score t job
  if min_score ≤ r.1 then
    let u := jobUpsert st.1 st.2.1 t.id jid r.1 r.2
    (u.1, u.2, st.2.2 + 1)
  else
    (st.1.filter (fun m => !(matchesJobPair t.id jid m)), st.2.1, st.2.2)

/-- `run_matching_for_job`: opportunity-centric incremental recompute for one
active job against every teacher. -/
def run_matching_for_job (db : DB) (job_id : Nat) (min_score : ℚ) : DB × Nat :=
  match db.jobs.find? (fun j => j.id == job_id && j.is_active) with
  | none => (db, 0)
  | some job =>
    let st := db.teachers.foldl (jobStepTeacher job job_id min_score) (db.teacher_school_matches, db.next_id, 0)
    ({ db with teacher_school_matches := st.1, next_id := st.2.1 }, st.2.2)

/-- One iteration of `run_matching_for_teacher_jobs`'s loop over jobs.  The
source has NO else branch here: a pair whose score falls below the threshold
is simply skipped, its existing row left in place. -/
def jobsStepJob (teacher : Teacher) (tid : Nat) (min_score : ℚ)
    (st : List MatchRecord × Nat × Nat) (j : Job) : List MatchRecord × Nat × Nat :=
  let r := calculate_job_match_score teacher j
  if min_score ≤ r.1 then
    let u := jobUpsert st.1 st.2.1 tid j.id r.1 r.2
    (u.1, u.2, st.2.2 + 1)
  else
    st

/-- `run_matching_for_teacher_jobs`: candidate-centric job matching against
all active external (non-"manual") jobs. -/
def run_matching_for_teacher_jobs (db : DB) (teacher_id : Nat) (min_score : ℚ) :
    Option (DB × Nat) :=
  match db.teachers.find? (fun t => t.id == teacher_id) with
  | none => none
  | some teacher =>
    let jobs := db.jobs.filter (fun j => j.is_active && !(j.source == "manual".data))
    let st := jobs.foldl (jobsStepJob teacher teacher_id min_score) (db.teacher_school_matches, db.next_id, 0)
    some ({ db with teacher_school_matches := st.1, next_id := st.2.1 }, st.2.2)

/-! ### Per-pair record sets and upsert/delete lemmas (school pairs) -/

/-- The records of one (teacher, school) natural key. -/
def pairRecsS (ms : List MatchRecord) (tid sid : Nat) : List MatchRecord :=
  ms.filter (matchesSchoolPair tid sid)

/-- The records of one (teacher, job) natural key. -/
def pairRecsJ (ms : List MatchRecord) (tid jid : Nat) : List MatchRecord :=
  ms.filter (matchesJobPair tid jid)

theorem matchesSchoolPair_iff {tid sid : Nat} {m : MatchRecord} :
    matchesSchoolPair tid sid m = true ↔ m.teacher_id = tid ∧ m.school_id = some sid := by
  simp [matchesSchoolPair]

theorem matchesJobPair_iff {tid jid : Nat} {m : MatchRecord} :
    matchesJobPair tid jid m = true ↔ m.teacher_id = tid ∧ m.job_id = some jid := by
  simp [matchesJobPair]

theorem schoolUpsert_pair_score {ms : List MatchRecord} {nid tid sid : Nat} {sc : ℚ}
    {rs : List Reason} :
    ∀ r ∈ (schoolUpsert ms nid tid sid sc rs).1,
      matchesSchoolPair tid sid r = true → r.match_score = sc := by
  intro r hr hp
  unfold schoolUpsert at hr
  by_cases hany : ms.any (matchesSchoolPair tid sid)
  · rw [if_pos hany] at hr
    obtain ⟨m, hm, rfl⟩ := List.mem_map.mp hr
    by_cases hpm : matchesSchoolPair tid sid m
    · simp [hpm]
    · rw [if_neg hpm] at hp
      exact absurd hp hpm
  · rw [if_neg hany] at hr
    rcases List.mem_append.mp hr with h | h
    · exact absurd (List.any_eq_true.mpr ⟨r, h, hp⟩) hany
    · rw [List.mem_singleton] at h
      subst h
      rfl

theorem schoolUpsert_preserve {ms : List MatchRecord} {tid sid : Nat} {m0 : MatchRecord}
    (nid : Nat) (sc : ℚ) (rs : List Reason)
    (hm : m0 ∈ ms) (hp : matchesSchoolPair tid sid m0 = true) :
    ∃ r ∈ (schoolUpsert ms nid tid sid sc rs).1,
      matchesSchoolPair tid sid r = true ∧ r.is_submitted = m0.is_submitted ∧
      r.role_name = m0.role_name ∧ r.match_score = sc := by
  have hany : ms.any (matchesSchoolPair tid sid) = true := List.any_eq_true.mpr ⟨m0, hm, hp⟩
  refine ⟨{ m0 with match_score := sc, match_reasons := rs }, ?_, ?_, rfl, rfl, rfl⟩
  · unfold schoolUpsert
    rw [if_pos hany]
    exact List.mem_map.mpr ⟨m0, hm, by simp [hp]⟩
  · rw [matchesSchoolPair_iff] at hp ⊢
    exact hp

theorem matchesSchoolPair_update (tid' sid' tid sid : Nat) (sc : ℚ) (rs : List Reason)
    (m : MatchRecord) :
    matchesSchoolPair tid' sid'
      (if matchesSchoolPair tid sid m then
        { m with match_score := sc, match_reasons := rs } else m) =
    matchesSchoolPair tid' sid' m := by
  by_cases h : matchesSchoolPair tid sid m
  · rw [if_pos h]
    rfl
  · rw [if_neg h]

theorem schoolUpsert_frame {ms : List MatchRecord} {nid tid sid : Nat} {sc : ℚ}
    {rs : List Reason} {tid' sid' : Nat} (hne : tid' ≠ tid) :
    pairRecsS (schoolUpsert ms nid tid sid sc rs).1 tid' sid' = pairRecsS ms tid' sid' := by
  unfold schoolUpsert pairRecsS
  by_cases hany : ms.any (matchesSchoolPair tid sid)
  · rw [if_pos hany]
    dsimp only
    rw [List.filter_map]
    have hpred : (matchesSchoolPair tid' sid' ∘ fun m =>
        if matchesSchoolPair tid sid m then
          { m with match_score := sc, match_reasons := rs } else m) =
        matchesSchoolPair tid' sid' := by
      funext m
      exact matchesSchoolPair_update tid' sid' tid sid sc rs m
    rw [hpred]
    have : ∀ m ∈ ms.filter (matchesSchoolPair tid' sid'),
        (if matchesSchoolPair tid sid m then
          { m with match_score := sc, match_reasons := rs } else m) = m := by
      intro m hm
      have hp := (List.mem_filter.mp hm).2
      have hf : matchesSchoolPair tid sid m = false := by
        rw [matchesSchoolPair_iff] at hp
        rw [Bool.eq_false_iff]
        intro hc
        rw [matchesSchoolPair_iff] at hc
        exact absurd (hp.1.symm.trans hc.1) hne
      simp [hf]
    rw [List.map_congr_left this]
    simp
  · rw [if_neg hany]
    dsimp only
    rw [List.filter_append]
    have hf : (matchesSchoolPair tid' sid' (newSchoolMatch nid tid sid sc rs)) = false := by
      rw [Bool.eq_false_iff]
      intro hc
      rw [matchesSchoolPair_iff] at hc
      exact hne hc.1.symm
    simp [List.filter_cons, hf]

theorem deletePairS_frame {ms : List MatchRecord} {tid sid tid' sid' : Nat} (hne : tid' ≠ tid) :
    pairRecsS (ms.filter (fun m => !(matchesSchoolPair tid sid m))) tid' sid' =
      pairRecsS ms tid' sid' := by
  unfold pairRecsS
  rw [List.filter_filter]
  apply List.filter_congr
  intro m _
  by_cases h : matchesSchoolPair tid' sid' m
  · have hf : matchesSchoolPair tid sid m = false := by
      rw [matchesSchoolPair_iff] at h
      rw [Bool.eq_false_iff]
      intro hc
      rw [matchesSchoolPair_iff] at hc
      exact absurd (h.1.symm.trans hc.1) hne
    simp [h, hf]
  · simp [h]

theorem deletePairS_self {ms : List MatchRecord} {tid sid : Nat} :
    pairRecsS (ms.filter (fun m => !(matchesSchoolPair tid sid m))) tid sid = [] := by
  rw [List.eq_nil_iff_forall_not_mem]
  intro x hx
  have h1 := List.mem_filter.mp hx
  have h2 := List.mem_filter.mp h1.1
  rw [h1.2] at h2
  simp at h2

/-! ### Fold lemmas for `run_matching_for_school` -/

theorem schoolFold_frame (school : School) (sid : Nat) (min_score : ℚ) (sid' tid : Nat)
    (ts : List Teacher) (st : List MatchRecord × Nat × Nat)
    (h : tid ∉ ts.map Teacher.id) :
    pairRecsS (ts.foldl (schoolStep school sid min_score) st).1 tid sid' =
      pairRecsS st.1 tid sid' := by
  induction ts generalizing st with
  | nil => rfl
  | cons t0 ts ih =>
    simp only [List.map_cons, List.mem_cons, not_or] at h
    obtain ⟨hne, hrest⟩ := h
    rw [List.foldl_cons, ih _ hrest]
    unfold schoolStep
    dsimp only
    split_ifs with hs
    · exact schoolUpsert_frame hne
    · exact deletePairS_frame hne

theorem schoolFold_main (school : School) (sid : Nat) (min_score : ℚ)
    (ts : List Teacher) (st : List MatchRecord × Nat × Nat)
    (hnd : (ts.map Teacher.id).Nodup) {t : Teacher} (ht : t ∈ ts) :
    (min_score ≤ (calculate_match_score t school).1 →
      (∀ r ∈ pairRecsS (ts.foldl (schoolStep school sid min_score) st).1 t.id sid,
        r.match_score = (calculate_match_score t school).1) ∧
      (∀ m0 ∈ pairRecsS st.1 t.id sid,
        ∃ r ∈ pairRecsS (ts.foldl (schoolStep school sid min_score) st).1 t.id sid,
          r.is_submitted = m0.is_submitted ∧ r.role_name = m0.role_name ∧
          r.match_score = (calculate_match_score t school).1)) ∧
    ((calculate_match_score t school).1 < min_score →
      pairRecsS (ts.foldl (schoolStep school sid min_score) st).1 t.id sid = []) := by
  induction ts generalizing st with
  | nil => cases ht
  | cons t0 ts ih =>
    rw [List.foldl_cons]
    simp only [List.map_cons, List.nodup_cons] at hnd
    obtain ⟨hnotin, hnd'⟩ := hnd
    rcases List.mem_cons.mp ht with rfl | hmem
    · have hframe := schoolFold_frame school sid min_score sid t.id ts
        (schoolStep school sid min_score st t) hnotin
      constructor
      · intro hsc
        constructor
        · intro r hr
          rw [hframe] at hr
          revert hr
          unfold schoolStep
          dsimp only
          rw [if_pos hsc]
          intro hr
          have hm := List.mem_filter.mp hr
          exact schoolUpsert_pair_score _ hm.1 hm.2
        · intro m0 hm0
          have h0 := List.mem_filter.mp hm0
          obtain ⟨r, hrmem, hpair, hsub, hrole, hscore⟩ :=
            schoolUpsert_preserve st.2.1 (calculate_match_score t school).1
              (calculate_match_score t school).2 h0.1 h0.2
          refine ⟨r, ?_, hsub, hrole, hscore⟩
          rw [hframe]
          unfold schoolStep
          dsimp only
          rw [if_pos hsc]
          exact List.mem_filter.mpr ⟨hrmem, hpair⟩
      · intro hsc
        rw [hframe]
        unfold schoolStep
        dsimp only
        rw [if_neg (not_le.mpr hsc)]
        exact deletePairS_self
    · have hne : t.id ≠ t0.id := by
        intro h
        exact hnotin (h ▸ List.mem_map_of_mem Teacher.id hmem)
      have hstep : pairRecsS (schoolStep school sid min_score st t0).1 t.id sid =
          pairRecsS st.1 t.id sid := by
        unfold schoolStep
        dsimp only
        split_ifs with hs
        · exact schoolUpsert_frame hne
        · exact deletePairS_frame hne
      have hih := ih (schoolStep school sid min_score st t0) hnd' hmem
      rw [hstep] at hih
      exact hih

/-! ### Upsert/delete lemmas (job pairs) -/

/-- Sanity invariant of the match table: row ids are unique and below the
next serial value. -/
def IdsOk (ms : List MatchRecord) (nid : Nat) : Prop :=
  (ms.map MatchRecord.id).Nodup ∧ ∀ m ∈ ms, m.id < nid

/-- At most one row per (teacher, job) natural key (the table's uniqueness
constraint, which the job runs rely on when they update "the" existing row). -/
def JPairUnique (ms : List MatchRecord) : Prop :=
  ∀ tid jid : Nat, ∀ m ∈ ms, ∀ m' ∈ ms,
    matchesJobPair tid jid m = true → matchesJobPair tid jid m' = true → m = m'

theorem idsOk_inj {ms : List MatchRecord} {nid : Nat} (h : IdsOk ms nid)
    {a b : MatchRecord} (ha : a ∈ ms) (hb : b ∈ ms) (hid : a.id = b.id) : a = b :=
  List.inj_on_of_nodup_map h.1 ha hb hid

theorem matchesJobPair_update (tid' jid' : Nat) (xid : Nat) (sc : ℚ) (rs : List Reason)
    (m : MatchRecord) :
    matchesJobPair tid' jid'
      (if m.id == xid then { m with match_score := sc, match_reasons := rs } else m) =
    matchesJobPair tid' jid' m := by
  by_cases h : m.id == xid
  · rw [if_pos h]
    rfl
  · rw [if_neg h]

theorem jobUpsert_pair_score {ms : List MatchRecord} {nid tid jid : Nat} {sc : ℚ}
    {rs : List Reason} (hids : IdsOk ms nid) (huniq : JPairUnique ms) :
    ∀ r ∈ (jobUpsert ms nid tid jid sc rs).1,
      matchesJobPair tid jid r = true → r.match_score = sc := by
  intro r hr hp
  unfold jobUpsert at hr
  cases hf : ms.find? (matchesJobPair tid jid) with
  | none =>
    rw [hf] at hr
    rcases List.mem_append.mp hr with h | h
    · exact absurd hp (List.find?_eq_none.mp hf r h)
    · rw [List.mem_singleton] at h
      subst h
      rfl
  | some ex =>
    rw [hf] at hr
    have hexmem := List.mem_of_find?_eq_some hf
    have hexpair := List.find?_some hf
    obtain ⟨m, hm, rfl⟩ := List.mem_map.mp hr
    by_cases hid : m.id == ex.id
    · rw [if_pos hid]
    · have hmeq := huniq tid jid m hm ex hexmem (by rwa [if_neg hid] at hp) hexpair
      rw [hmeq] at hid
      simp at hid

theorem jobUpsert_preserve {ms : List MatchRecord} {tid jid : Nat} {m0 : MatchRecord}
    (nid : Nat) (sc : ℚ) (rs : List Reason) (hids : IdsOk ms nid) (huniq : JPairUnique ms)
    (hm : m0 ∈ ms) (hp : matchesJobPair tid jid m0 = true) :
    ∃ r ∈ (jobUpsert ms nid tid jid sc rs).1,
      matchesJobPair tid jid r = true ∧ r.is_submitted = m0.is_submitted ∧
      r.role_name = m0.role_name ∧ r.match_score = sc := by
  unfold jobUpsert
  cases hf : ms.find? (matchesJobPair tid jid) with
  | none => exact absurd hp (List.find?_eq_none.mp hf m0 hm)
  | some ex =>
    have hexmem := List.mem_of_find?_eq_some hf
    have hexpair := List.find?_some hf
    have hm0ex : m0 = ex := huniq tid jid m0 hm ex hexmem hp hexpair
    subst hm0ex
    refine ⟨{ m0 with match_score := sc, match_reasons := rs }, ?_, ?_, rfl, rfl, rfl⟩
    · exact List.mem_map.mpr ⟨m0, hm, by simp⟩
    · rw [matchesJobPair_iff] at hp ⊢
      exact hp

theorem jobUpsert_frame {ms : List MatchRecord} {nid tid jid : Nat} {sc : ℚ}
    {rs : List Reason} {tid' jid' : Nat} (hids : IdsOk ms nid)
    (hkey : tid' ≠ tid ∨ jid' ≠ jid) :
    pairRecsJ (jobUpsert ms nid tid jid sc rs).1 tid' jid' = pairRecsJ ms tid' jid' := by
  unfold jobUpsert pairRecsJ
  cases hf : ms.find? (matchesJobPair tid jid) with
  | none =>
    dsimp only
    rw [List.filter_append]
    have hfnew : matchesJobPair tid' jid' (newJobMatch nid tid jid sc rs) = false := by
      rw [Bool.eq_false_iff]
      intro hc
      rw [matchesJobPair_iff] at hc
      rcases hkey with h | h
      · exact h hc.1.symm
      · exact h (Option.some.inj hc.2).symm
    simp [List.filter_cons, hfnew]
  | some ex =>
    dsimp only
    rw [List.filter_map]
    have hexmem := List.mem_of_find?_eq_some hf
    have hexpair := List.find?_some hf
    have hpred : (matchesJobPair tid' jid' ∘ fun m =>
        if m.id == ex.id then { m with match_score := sc, match_reasons := rs } else m) =
        matchesJobPair tid' jid' := by
      funext m
      exact matchesJobPair_update tid' jid' ex.id sc rs m
    rw [hpred]
    have hid : ∀ m ∈ ms.filter (matchesJobPair tid' jid'),
        (if m.id == ex.id then { m with match_score := sc, match_reasons := rs } else m) = m := by
      intro m hm
      obtain ⟨hmem, hmp⟩ := List.mem_filter.mp hm
      have hne : (m.id == ex.id) = false := by
        rw [Bool.eq_false_iff]
        intro hc
        have hmeq : m = ex := idsOk_inj hids hmem hexmem (by simpa using hc)
        subst hmeq
        rw [matchesJobPair_iff] at hmp
        rw [matchesJobPair_iff] at hexpair
        rcases hkey with h | h
        · exact h (hmp.1.symm.trans hexpair.1)
        · exact h (Option.some.inj (hmp.2.symm.trans hexpair.2))
      rw [hne]
      simp
    rw [List.map_congr_left hid]
    simp

theorem deletePairJ_frame {ms : List MatchRecord} {tid jid tid' jid' : Nat}
    (hkey : tid' ≠ tid ∨ jid' ≠ jid) :
    pairRecsJ (ms.filter (fun m => !(matchesJobPair tid jid m))) tid' jid' =
      pairRecsJ ms tid' jid' := by
  unfold pairRecsJ
  rw [List.filter_filter]
  apply List.filter_congr
  intro m _
  by_cases h : matchesJobPair tid' jid' m
  · have hf : matchesJobPair tid jid m = false := by
      rw [matchesJobPair_iff] at h
      rw [Bool.eq_false_iff]
      intro hc
      rw [matchesJobPair_iff] at hc
      rcases hkey with hk | hk
      · exact hk (h.1.symm.trans hc.1)
      · exact hk (Option.some.inj (h.2.symm.trans hc.2))
    simp [h, hf]
  · simp [h]

theorem deletePairJ_self {ms : List MatchRecord} {tid jid : Nat} :
    pairRecsJ (ms.filter (fun m => !(matchesJobPair tid jid m))) tid jid = [] := by
  rw [List.eq_nil_iff_forall_not_mem]
  intro x hx
  have h1 := List.mem_filter.mp hx
  have h2 := List.mem_filter.mp h1.1
  rw [h1.2] at h2
  simp at h2

/-! ### Invariant preservation -/

theorem jobUpsert_inv {ms : List MatchRecord} {nid tid jid : Nat} {sc : ℚ}
    {rs : List Reason} (hids : IdsOk ms nid) (huniq : JPairUnique ms) :
    IdsOk (jobUpsert ms nid tid jid sc rs).1 (jobUpsert ms nid tid jid sc rs).2 ∧
    JPairUnique (jobUpsert ms nid tid jid sc rs).1 := by
  unfold jobUpsert
  cases hf : ms.find? (matchesJobPair tid jid) with
  | some ex =>
    dsimp only
    constructor
    · constructor
      · have : (ms.map (fun m =>
            if m.id == ex.id then { m with match_score := sc, match_reasons := rs } else m)).map
            MatchRecord.id = ms.map MatchRecord.id := by
          rw [List.map_map]
          apply List.map_congr_left
          intro m _
          by_cases h : m.id == ex.id
          · rw [Function.comp_apply, if_pos h]
          · rw [Function.comp_apply, if_neg h]
        rw [this]
        exact hids.1
      · intro m hm
        obtain ⟨m0, hm0, rfl⟩ := List.mem_map.mp hm
        by_cases h : m0.id == ex.id
        · rw [if_pos h]
          exact hids.2 m0 hm0
        · rw [if_neg h]
          exact hids.2 m0 hm0
    · intro tid' jid' r hr r' hr' hp hp'
      obtain ⟨m, hm, rfl⟩ := List.mem_map.mp hr
      obtain ⟨m', hm', rfl⟩ := List.mem_map.mp hr'
      rw [matchesJobPair_update] at hp hp'
      rw [huniq tid' jid' m hm m' hm' hp hp']
  | none =>
    dsimp only
    have hnotin : nid ∉ ms.map MatchRecord.id := by
      intro hc
      obtain ⟨m, hm, hmid⟩ := List.mem_map.mp hc
      exact absurd hmid (Nat.ne_of_lt (hids.2 m hm))
    constructor
    · constructor
      · rw [List.map_append]
        rw [List.nodup_append]
        refine ⟨hids.1, List.nodup_singleton _, ?_⟩
        intro a ha hb
        simp [newJobMatch] at hb
        subst hb
        exact hnotin ha
      · intro m hm
        rcases List.mem_append.mp hm with h | h
        · exact Nat.lt_trans (hids.2 m h) (Nat.lt_succ_self _)
        · rw [List.mem_singleton] at h
          subst h
          exact Nat.lt_succ_self _
    · intro tid' jid' r hr r' hr' hp hp'
      have hnewpair : ∀ x, x = newJobMatch nid tid jid sc rs →
          matchesJobPair tid' jid' x = true → tid' = tid ∧ jid' = jid := by
        rintro x rfl hx
        rw [matchesJobPair_iff] at hx
        exact ⟨hx.1.symm, (Option.some.inj hx.2).symm⟩
      rcases List.mem_append.mp hr with h | h <;> rcases List.mem_append.mp hr' with h' | h'
      · exact huniq tid' jid' r h r' h' hp hp'
      · rw [List.mem_singleton] at h'
        obtain ⟨rfl, rfl⟩ := hnewpair r' h' hp'
        exact absurd hp (List.find?_eq_none.mp hf r h)
      · rw [List.mem_singleton] at h
        obtain ⟨rfl, rfl⟩ := hnewpair r h hp
        exact absurd hp' (List.find?_eq_none.mp hf r' h')
      · rw [List.mem_singleton] at h h'
        rw [h, h']

theorem filter_idsOk {ms : List MatchRecord} {nid : Nat} (q : MatchRecord → Bool)
    (hids : IdsOk ms nid) : IdsOk (ms.filter q) nid := by
  constructor
  · exact List.Nodup.sublist (List.Sublist.map _ (List.filter_sublist _)) hids.1
  · intro m hm
    exact hids.2 m (List.mem_filter.mp hm).1

theorem filter_uniq {ms : List MatchRecord} (q : MatchRecord → Bool)
    (huniq : JPairUnique ms) : JPairUnique (ms.filter q) := by
  intro tid jid m hm m' hm' hp hp'
  exact huniq tid jid m (List.mem_filter.mp hm).1 m' (List.mem_filter.mp hm').1 hp hp'

/-! ### Fold lemmas for `run_matching_for_job` -/

theorem jobStepT_inv (job : Job) (jid : Nat) (min_score : ℚ)
    (st : List MatchRecord × Nat × Nat) (t : Teacher)
    (hids : IdsOk st.1 st.2.1) (huniq : JPairUnique st.1) :
    IdsOk (jobStepTeacher job jid min_score st t).1 (jobStepTeacher job jid min_score st t).2.1 ∧
    JPairUnique (jobStepTeacher job jid min_score st t).1 := by
  unfold jobStepTeacher
  dsimp only
  split_ifs with hs
  · exact jobUpsert_inv hids huniq
  · exact ⟨filter_idsOk _ hids, filter_uniq _ huniq⟩

theorem jobFoldT_frame (job : Job) (jid : Nat) (min_score : ℚ) (tid jid' : Nat)
    (ts : List Teacher) (st : List MatchRecord × Nat × Nat)
    (hids : IdsOk st.1 st.2.1) (huniq : JPairUnique st.1)
    (h : tid ∉ ts.map Teacher.id) :
    pairRecsJ (ts.foldl (jobStepTeacher job jid min_score) st).1 tid jid' =
      pairRecsJ st.1 tid jid' := by
  induction ts generalizing st with
  | nil => rfl
  | cons t0 ts ih =>
    simp only [List.map_cons, List.mem_cons, not_or] at h
    obtain ⟨hne, hrest⟩ := h
    obtain ⟨hids', huniq'⟩ := jobStepT_inv job jid min_score st t0 hids huniq
    rw [List.foldl_cons, ih _ hids' huniq' hrest]
    unfold jobStepTeacher
    dsimp only
    split_ifs with hs
    · exact jobUpsert_frame hids (Or.inl hne)
    · exact deletePairJ_frame (Or.inl hne)

theorem jobFoldT_main (job : Job) (jid : Nat) (min_score : ℚ)
    (ts : List Teacher) (st : List MatchRecord × Nat × Nat)
    (hids : IdsOk st.1 st.2.1) (huniq : JPairUnique st.1)
    (hnd : (ts.map Teacher.id).Nodup) {t : Teacher} (ht : t ∈ ts) :
    (min_score ≤ (calculate_job_match_score t job).1 →
      (∀ r ∈ pairRecsJ (ts.foldl (jobStepTeacher job jid min_score) st).1 t.id jid,
        r.match_score = (calculate_job_match_score t job).1) ∧
      (∀ m0 ∈ pairRecsJ st.1 t.id jid,
        ∃ r ∈ pairRecsJ (ts.foldl (jobStepTeacher job jid min_score) st).1 t.id jid,
          r.is_submitted = m0.is_submitted ∧ r.role_name = m0.role_name ∧
          r.match_score = (calculate_job_match_score t job).1)) ∧
    ((calculate_job_match_score t job).1 < min_score →
      pairRecsJ (ts.foldl (jobStepTeacher job jid min_score) st).1 t.id jid = []) := by
  induction ts generalizing st with
  | nil => cases ht
  | cons t0 ts ih =>
    rw [List.foldl_cons]
    simp only [List.map_cons, List.nodup_cons] at hnd
    obtain ⟨hnotin, hnd'⟩ := hnd
    obtain ⟨hids', huniq'⟩ := jobStepT_inv job jid min_score st t0 hids huniq
    rcases List.mem_cons.mp ht with rfl | hmem
    · have hframe := jobFoldT_frame job jid min_score t.id jid ts
        (jobStepTeacher job jid min_score st t) hids' huniq' hnotin
      constructor
      · intro hsc
        constructor
        · intro r hr
          rw [hframe] at hr
          revert hr
          unfold jobStepTeacher
          dsimp only
          rw [if_pos hsc]
          intro hr
          have hm := List.mem_filter.mp hr
          exact jobUpsert_pair_score hids huniq _ hm.1 hm.2
        · intro m0 hm0
          have h0 := List.mem_filter.mp hm0
          obtain ⟨r, hrmem, hpair, hsub, hrole, hscore⟩ :=
            jobUpsert_preserve st.2.1 (calculate_job_match_score t job).1
              (calculate_job_match_score t job).2 hids huniq h0.1 h0.2
          refine ⟨r, ?_, hsub, hrole, hscore⟩
          rw [hframe]
          unfold jobStepTeacher
          dsimp only
          rw [if_pos hsc]
          exact List.mem_filter.mpr ⟨hrmem, hpair⟩
      · intro hsc
        rw [hframe]
        unfold jobStepTeacher
        dsimp only
        rw [if_neg (not_le.mpr hsc)]
        exact deletePairJ_self
    · have hne : t.id ≠ t0.id := by
        intro h
        exact hnotin (h ▸ List.mem_map_of_mem Teacher.id hmem)
      have hstep : pairRecsJ (jobStepTeacher job jid min_score st t0).1 t.id jid =
          pairRecsJ st.1 t.id jid := by
        unfold jobStepTeacher
        dsimp only
        split_ifs with hs
        · exact jobUpsert_frame hids (Or.inl hne)
        · exact deletePairJ_frame (Or.inl hne)
      have hih := ih (jobStepTeacher job jid min_score st t0) hids' huniq' hnd' hmem
      rw [hstep] at hih
      exact hih

/-! ### Fold lemmas for `run_matching_for_teacher_jobs` -/

theorem jobsStepJ_inv (teacher : Teacher) (tid : Nat) (min_score : ℚ)
    (st : List MatchRecord × Nat × Nat) (j : Job)
    (hids : IdsOk st.1 st.2.1) (huniq : JPairUnique st.1) :
    IdsOk (jobsStepJob teacher tid min_score st j).1 (jobsStepJob teacher tid min_score st j).2.1 ∧
    JPairUnique (jobsStepJob teacher tid min_score st j).1 := by
  unfold jobsStepJob
  dsimp only
  split_ifs with hs
  · exact jobUpsert_inv hids huniq
  · exact ⟨hids, huniq⟩

theorem jobsFoldJ_frame (teacher : Teacher) (tid : Nat) (min_score : ℚ) (tid' jid' : Nat)
    (js : List Job) (st : List MatchRecord × Nat × Nat)
    (hids : IdsOk st.1 st.2.1) (huniq : JPairUnique st.1)
    (h : jid' ∉ js.map Job.id) :
    pairRecsJ (js.foldl (jobsStepJob teacher tid min_score) st).1 tid' jid' =
      pairRecsJ st.1 tid' jid' := by
  induction js generalizing st with
  | nil => rfl
  | cons j0 js ih =>
    simp only [List.map_cons, List.mem_cons, not_or] at h
    obtain ⟨hne, hrest⟩ := h
    obtain ⟨hids', huniq'⟩ := jobsStepJ_inv teacher tid min_score st j0 hids huniq
    rw [List.foldl_cons, ih _ hids' huniq' hrest]
    unfold jobsStepJob
    dsimp only
    split_ifs with hs
    · exact jobUpsert_frame hids (Or.inr hne)
    · rfl

theorem jobsFoldJ_main (teacher : Teacher) (tid : Nat) (min_score : ℚ)
    (js : List Job) (st : List MatchRecord × Nat × Nat)
    (hids : IdsOk st.1 st.2.1) (huniq : JPairUnique st.1)
    (hnd : (js.map Job.id).Nodup) {j : Job} (hj : j ∈ js) :
    (min_score ≤ (calculate_job_match_score teacher j).1 →
      ∀ r ∈ pairRecsJ (js.foldl (jobsStepJob teacher tid min_score) st).1 tid j.id,
        r.match_score = (calculate_job_match_score teacher j).1) ∧
    ((calculate_job_match_score teacher j).1 < min_score →
      pairRecsJ (js.foldl (jobsStepJob teacher tid min_score) st).1 tid j.id =
        pairRecsJ st.1 tid j.id) := by
  induction js generalizing st with
  | nil => cases hj
  | cons j0 js ih =>
    rw [List.foldl_cons]
    simp only [List.map_cons, List.nodup_cons] at hnd
    obtain ⟨hnotin, hnd'⟩ := hnd
    obtain ⟨hids', huniq'⟩ := jobsStepJ_inv teacher tid min_score st j0 hids huniq
    rcases List.mem_cons.mp hj with rfl | hmem
    · have hframe := jobsFoldJ_frame teacher tid min_score tid j.id js
        (jobsStepJob teacher tid min_score st j) hids' huniq' hnotin
      constructor
      · intro hsc r hr
        rw [hframe] at hr
        revert hr
        unfold jobsStepJob
        dsimp only
        rw [if_pos hsc]
        intro hr
        have hm := List.mem_filter.mp hr
        exact jobUpsert_pair_score hids huniq _ hm.1 hm.2
      · intro hsc
        rw [hframe]
        unfold jobsStepJob
        dsimp only
        rw [if_neg (not_le.mpr hsc)]
    · have hne : j.id ≠ j0.id := by
        intro h
        exact hnotin (h ▸ List.mem_map_of_mem Job.id hmem)
      have hstep : pairRecsJ (jobsStepJob teacher tid min_score st j0).1 tid j.id =
          pairRecsJ st.1 tid j.id := by
        unfold jobsStepJob
        dsimp only
        split_ifs with hs
        · exact jobUpsert_frame hids (Or.inr hne)
        · rfl
      have hih := ih (jobsStepJob teacher tid min_score st j0) hids' huniq' hnd' hmem
      rw [hstep] at hih
      exact hih

/-! ### Fold lemmas for `run_matching_for_teacher` -/

theorem mem_insertByScoreDesc {α : Type} (f : α → ℚ) (x a : α) (l : List α) :
    a ∈ insertByScoreDesc f x l ↔ a = x ∨ a ∈ l := by
  induction l with
  | nil => simp [insertByScoreDesc]
  | cons y ys ih =>
    unfold insertByScoreDesc
    split_ifs with h
    · simp
    · simp only [List.mem_cons, ih]
      tauto

theorem mem_sortByScoreDesc {α : Type} (f : α → ℚ) (a : α) (l : List α) :
    a ∈ sortByScoreDesc f l ↔ a ∈ l := by
  induction l with
  | nil => simp [sortByScoreDesc]
  | cons y ys ih =>
    unfold sortByScoreDesc
    rw [mem_insertByScoreDesc, ih, List.mem_cons]

theorem teacherInsFold_mem (tid : Nat) (l : List (School × (ℚ × List Reason)))
    (init : List MatchRecord) (n0 : Nat) :
    ∀ r ∈ (l.foldl (fun (st : List MatchRecord × Nat) p =>
        (st.1 ++ [newSchoolMatch st.2 tid p.1.id p.2.1 p.2.2], st.2 + 1)) (init, n0)).1,
      r ∈ init ∨
        (r.teacher_id = tid ∧ r.job_id = none ∧ r.is_submitted = false ∧ r.role_name = none ∧
          ∃ p ∈ l, r.school_id = some p.1.id ∧ r.match_score = p.2.1) := by
  induction l generalizing init n0 with
  | nil => exact fun r hr => Or.inl hr
  | cons p l ih =>
    intro r hr
    rw [List.foldl_cons] at hr
    rcases ih _ _ r hr with hin | ⟨h1, h2, h3, h4, p', hp', h5, h6⟩
    · rcases List.mem_append.mp hin with h | h
      · exact Or.inl h
      · rw [List.mem_singleton] at h
        subst h
        exact Or.inr ⟨rfl, rfl, rfl, rfl, p, List.mem_cons_self p l, rfl, rfl⟩
    · exact Or.inr ⟨h1, h2, h3, h4, p', List.mem_cons_of_mem p hp', h5, h6⟩

theorem teacherInsFold_init (tid : Nat) (l : List (School × (ℚ × List Reason)))
    (init : List MatchRecord) (n0 : Nat) :
    ∀ r ∈ init, r ∈ (l.foldl (fun (st : List MatchRecord × Nat) p =>
        (st.1 ++ [newSchoolMatch st.2 tid p.1.id p.2.1 p.2.2], st.2 + 1)) (init, n0)).1 := by
  induction l generalizing init n0 with
  | nil => exact fun r hr => hr
  | cons p l ih =>
    intro r hr
    rw [List.foldl_cons]
    exact ih _ _ r (List.mem_append.mpr (Or.inl hr))

theorem teacherInsFold_gen (tid : Nat) (l : List (School × (ℚ × List Reason)))
    (init : List MatchRecord) (n0 : Nat) :
    ∀ p ∈ l, ∃ r ∈ (l.foldl (fun (st : List MatchRecord × Nat) p =>
        (st.1 ++ [newSchoolMatch st.2 tid p.1.id p.2.1 p.2.2], st.2 + 1)) (init, n0)).1,
      r.teacher_id = tid ∧ r.school_id = some p.1.id ∧ r.match_score = p.2.1 ∧
      r.job_id = none ∧ r.is_submitted = false ∧ r.role_name = none := by
  induction l generalizing init n0 with
  | nil => exact fun p hp => absurd hp (List.not_mem_nil p)
  | cons p0 l ih =>
    intro p hp
    rw [List.foldl_cons]
    rcases List.mem_cons.mp hp with rfl | hmem
    · refine ⟨newSchoolMatch n0 tid p.1.id p.2.1 p.2.2, ?_, rfl, rfl, rfl, rfl, rfl, rfl⟩
      exact teacherInsFold_init tid l
        (init ++ [newSchoolMatch n0 tid p.1.id p.2.1 p.2.2]) (n0 + 1)
        (newSchoolMatch n0 tid p.1.id p.2.1 p.2.2)
        (List.mem_append.mpr (Or.inr (List.mem_singleton.mpr rfl)))
    · exact ih _ _ p hmem

/-- Completeness of a successful candidate-centric run: every active school
whose recomputed pair clears the threshold has an inserted record afterwards,
carrying the recomputed score and the inserted defaults. -/
theorem run_teacher_complete {db : DB} {tid : Nat} {min_score : ℚ} {db' : DB}
    {teacher : Teacher}
    (hf : db.teachers.find? (fun t => t.id == tid) = some teacher)
    (hrun : run_matching_for_teacher db tid min_score = some db') :
    ∀ s ∈ db.schools.filter (fun s => s.is_active),
      min_score ≤ (calculate_match_score teacher s).1 →
      ∃ r ∈ db'.teacher_school_matches,
        r.teacher_id = tid ∧ r.school_id = some s.id ∧
        r.match_score = (calculate_match_score teacher s).1 ∧
        r.job_id = none ∧ r.is_submitted = false ∧ r.role_name = none := by
  intro s hs hsc
  unfold run_matching_for_teacher at hrun
  rw [hf] at hrun
  dsimp only at hrun
  obtain rfl := Option.some.inj hrun.symm
  dsimp only
  have hq : (s, calculate_match_score teacher s) ∈
      ((db.schools.filter (fun s => s.is_active)).map
        (fun s => (s, calculate_match_score teacher s))).filter
        (fun p => min_score ≤ p.2.1) :=
    List.mem_filter.mpr ⟨List.mem_map.mpr ⟨s, hs, rfl⟩, decide_eq_true hsc⟩
  have hsorted := (mem_sortByScoreDesc (fun p => p.2.1) (s, calculate_match_score teacher s)
    _).mpr hq
  exact teacherInsFold_gen tid _ _ _ _ hsorted

/-- Characterization of a successful candidate-centric run: every surviving
record either belonged to another candidate already, or is a freshly inserted
school record of a qualifying scored pair; and other candidates' records all
survive. -/
theorem run_teacher_mem {db : DB} {tid : Nat} {min_score : ℚ} {db' : DB} {teacher : Teacher}
    (hf : db.teachers.find? (fun t => t.id == tid) = some teacher)
    (hrun : run_matching_for_teacher db tid min_score = some db') :
    (∀ r ∈ db'.teacher_school_matches,
      (r ∈ db.teacher_school_matches ∧ r.teacher_id ≠ tid) ∨
      (r.teacher_id = tid ∧ r.job_id = none ∧ r.is_submitted = false ∧ r.role_name = none ∧
        ∃ s ∈ db.schools.filter (fun s => s.is_active),
          r.school_id = some s.id ∧ r.match_score = (calculate_match_score teacher s).1 ∧
          min_score ≤ (calculate_match_score teacher s).1)) ∧
    (∀ r ∈ db.teacher_school_matches, r.teacher_id ≠ tid → r ∈ db'.teacher_school_matches) := by
  unfold run_matching_for_teacher at hrun
  rw [hf] at hrun
  dsimp only at hrun
  obtain rfl := Option.some.inj hrun.symm
  constructor
  · intro r hr
    dsimp only at hr
    rcases teacherInsFold_mem tid _ _ _ r hr with hin | ⟨h1, h2, h3, h4, p, hp, h5, h6⟩
    · obtain ⟨hmem, hne⟩ := List.mem_filter.mp hin
      exact Or.inl ⟨hmem, by simpa using hne⟩
    · rw [mem_sortByScoreDesc] at hp
      obtain ⟨hpm, hpq⟩ := List.mem_filter.mp hp
      obtain ⟨s, hs, rfl⟩ := List.mem_map.mp hpm
      refine Or.inr ⟨h1, h2, h3, h4, s, hs, h5, h6, ?_⟩
      simpa using hpq
  · intro r hr hne
    dsimp only
    apply teacherInsFold_init
    exact List.mem_filter.mpr ⟨hr, by simpa using hne⟩

/-! ### Concrete fixtures -/

def exTeacher1 : Teacher := ⟨1, "u1".data, .null, .null, .null, .null, false, false⟩

def exTeacher2 : Teacher := ⟨2, "u2".data, .null, .null, .null, .null, false, false⟩

def exSchool7 : School :=
  ⟨7, "Sunrise School".data, [], [], [], [], [], false, true, [], []⟩

/-- An active external job with an unparsable experience requirement and a
Chinese-language requirement the candidate does not meet: it scores
47.5 < 50 against `exTeacher1`. -/
def exJob9 : Job :=
  ⟨9, [], [], [], [], "xyz".data, true, true, "tes".data, "Teacher".data, "Acme".data,
    [], [], [], none⟩

/-- An active external job with no requirements at all: it scores 59.5 ≥ 50
against `exTeacher1`. -/
def exJob5 : Job :=
  ⟨5, [], [], [], [], [], false, true, "tes".data, "Teacher".data, "Beta".data,
    [], [], [], none⟩

/-- An existing job-kind match row for the pair (teacher 1, job 9), marked as
submitted by the application workflow. -/
def exRec0 : MatchRecord := ⟨0, 1, none, some 9, 80, [], true, some "Role A".data⟩

/-- An existing job-kind match row belonging to teacher 2. -/
def exRec2 : MatchRecord := ⟨3, 2, none, some 9, 70, [], false, none⟩

/-- An existing school-kind match row for the pair (teacher 1, school 7),
submitted, with a role-name override. -/
def exRecS : MatchRecord := ⟨0, 1, some 7, none, 80, [], true, some "Role B".data⟩

def exDB1 : DB := ⟨[exTeacher1], [], [exJob9, exJob5], [exRec0], [], 4⟩

def exDB3 : DB := ⟨[exTeacher1], [], [exJob9], [exRec0, exRec2], [], 4⟩

def exDBS : DB := ⟨[exTeacher1], [exSchool7], [], [exRecS], [], 4⟩

theorem exJob9_score : (calculate_job_match_score exTeacher1 exJob9).1 = 47.5 := by
  have hp : parseExpReq (lowerStr "xyz".data) = none := by decide
  simp only [calculate_job_match_score, exTeacher1, exJob9, parse_comma_separated,
    parse_years_experience, calculate_location_score, calculate_subject_score,
    calculate_age_group_score, calculate_chinese_score, calculate_experience_score, hp,
    WEIGHT_LOCATION, WEIGHT_SUBJECT, WEIGHT_AGE_GROUP, WEIGHT_EXPERIENCE, WEIGHT_CHINESE]
  rw [if_neg (by decide : ¬(['x', 'y', 'z'] : List Char) = [])]
  norm_num [round2, round_eq]

theorem exJob5_score : (calculate_job_match_score exTeacher1 exJob5).1 = 59.5 := by
  simp only [calculate_job_match_score, exTeacher1, exJob5, parse_comma_separated,
    parse_years_experience, calculate_location_score, calculate_subject_score,
    calculate_age_group_score, calculate_chinese_score, calculate_experience_score,
    WEIGHT_LOCATION, WEIGHT_SUBJECT, WEIGHT_AGE_GROUP, WEIGHT_EXPERIENCE, WEIGHT_CHINESE]
  norm_num [round2, round_eq]

/-! ### Claim C1 — the threshold invariant of the four recomputation runs -/

/-- C1 counterexample: `run_matching_for_teacher_jobs` never deletes.  With
the default threshold 50, the scored pair (teacher 1, job 9) recomputes to
47.5 < 50, yet its MatchRecord still exists after the run (job 5's qualifying
pair is upserted, job 9's stale row survives). -/
theorem claim_C1_counterexample :
    exDB1.jobs.filter (fun j => j.is_active && !(j.source == "manual".data)) = [exJob9, exJob5] ∧
    (calculate_job_match_score exTeacher1 exJob9).1 < 50 ∧
    (run_matching_for_teacher_jobs exDB1 1 50).map
      (fun res => res.1.teacher_school_matches.map (fun r => (r.teacher_id, r.job_id))) =
      some [(1, some 9), (1, some 5)] := by
  have h9 : ¬ ((50 : ℚ) ≤ (calculate_job_match_score exTeacher1 exJob9).1) := by
    rw [exJob9_score]
    norm_num
  have h5 : (50 : ℚ) ≤ (calculate_job_match_score exTeacher1 exJob5).1 := by
    rw [exJob5_score]
    norm_num
  refine ⟨rfl, by rw [exJob9_score]; norm_num, ?_⟩
  unfold run_matching_for_teacher_jobs
  rw [show exDB1.teachers.find? (fun t => t.id == 1) = some exTeacher1 from rfl]
  dsimp only
  rw [show exDB1.jobs.filter (fun j => j.is_active && !(j.source == "manual".data)) =
    [exJob9, exJob5] from rfl]
  rw [List.foldl_cons]
  rw [show jobsStepJob exTeacher1 1 50 (exDB1.teacher_school_matches, exDB1.next_id, 0) exJob9 =
      (exDB1.teacher_school_matches, exDB1.next_id, 0) from by
    unfold jobsStepJob
    dsimp only
    rw [if_neg h9]]
  rw [List.foldl_cons]
  rw [show jobsStepJob exTeacher1 1 50 (exDB1.teacher_school_matches, exDB1.next_id, 0) exJob5 =
      (exDB1.teacher_school_matches ++
        [newJobMatch 4 1 5 (calculate_job_match_score exTeacher1 exJob5).1
          (calculate_job_match_score exTeacher1 exJob5).2], 5, 1) from by
    unfold jobsStepJob
    dsimp only
    rw [if_pos h5]
    rfl]
  rfl

/-- The concrete result of `run_matching_for_teacher_jobs exDB1 1 50`: job 5's
pair inserted, job 9's stale row untouched. -/
def exDB1' : DB :=
  ⟨[exTeacher1], [], [exJob9, exJob5],
    [exRec0, newJobMatch 4 1 5 (calculate_job_match_score exTeacher1 exJob5).1
      (calculate_job_match_score exTeacher1 exJob5).2], [], 5⟩

theorem exDB1_run : run_matching_for_teacher_jobs exDB1 1 50 = some (exDB1', 1) := by
  have h9 : ¬ ((50 : ℚ) ≤ (calculate_job_match_score exTeacher1 exJob9).1) := by
    rw [exJob9_score]
    norm_num
  have h5 : (50 : ℚ) ≤ (calculate_job_match_score exTeacher1 exJob5).1 := by
    rw [exJob5_score]
    norm_num
  unfold run_matching_for_teacher_jobs
  rw [show exDB1.teachers.find? (fun t => t.id == 1) = some exTeacher1 from rfl]
  dsimp only
  rw [show exDB1.jobs.filter (fun j => j.is_active && !(j.source == "manual".data)) =
    [exJob9, exJob5] from rfl]
  rw [List.foldl_cons]
  rw [show jobsStepJob exTeacher1 1 50 (exDB1.teacher_school_matches, exDB1.next_id, 0) exJob9 =
      (exDB1.teacher_school_matches, exDB1.next_id, 0) from by
    unfold jobsStepJob
    dsimp only
    rw [if_neg h9]]
  rw [List.foldl_cons]
  rw [show jobsStepJob exTeacher1 1 50 (exDB1.teacher_school_matches, exDB1.next_id, 0) exJob5 =
      (exDB1.teacher_school_matches ++
        [newJobMatch 4 1 5 (calculate_job_match_score exTeacher1 exJob5).1
          (calculate_job_match_score exTeacher1 exJob5).2], 5, 1) from by
    unfold jobsStepJob
    dsimp only
    rw [if_pos h5]
    rfl]
  rfl

/-- C1 (amended): after `run_matching_for_teacher`, every record of the
candidate scores at least `min_score` and no record remains for a scored,
below-threshold (candidate, school) pair; after `run_matching_for_school` and
`run_matching_for_job`, every scored pair's surviving record scores at least
`min_score` and scored below-threshold pairs have no record.  For
`run_matching_for_teacher_jobs` only half the invariant holds: records the run
writes score at least `min_score`, but a scored pair that recomputes below the
threshold is NOT deleted — its record set is left exactly as it was. -/
theorem claim_C1 :
    (∀ (db : DB) (tid : Nat) (min_score : ℚ) (teacher : Teacher) (db' : DB),
      db.teachers.find? (fun t => t.id == tid) = some teacher →
      run_matching_for_teacher db tid min_score = some db' →
      ((db.schools.filter (fun s => s.is_active)).map School.id).Nodup →
      (∀ r ∈ db'.teacher_school_matches, r.teacher_id = tid → min_score ≤ r.match_score) ∧
      (∀ s ∈ db.schools.filter (fun s => s.is_active),
        (calculate_match_score teacher s).1 < min_score →
        ∀ r ∈ db'.teacher_school_matches, ¬(r.teacher_id = tid ∧ r.school_id = some s.id))) ∧
    (∀ (db : DB) (sid : Nat) (min_score : ℚ) (school : School),
      db.schools.find? (fun s => s.id == sid && s.is_active) = some school →
      (db.teachers.map Teacher.id).Nodup →
      ∀ t ∈ db.teachers,
        (min_score ≤ (calculate_match_score t school).1 →
          ∀ r ∈ (run_matching_for_school db sid min_score).1.teacher_school_matches,
            r.teacher_id = t.id → r.school_id = some sid → min_score ≤ r.match_score) ∧
        ((calculate_match_score t school).1 < min_score →
          ∀ r ∈ (run_matching_for_school db sid min_score).1.teacher_school_matches,
            ¬(r.teacher_id = t.id ∧ r.school_id = some sid))) ∧
    (∀ (db : DB) (jid : Nat) (min_score : ℚ) (job : Job),
      db.jobs.find? (fun j => j.id == jid && j.is_active) = some job →
      (db.teachers.map Teacher.id).Nodup →
      IdsOk db.teacher_school_matches db.next_id →
      JPairUnique db.teacher_school_matches →
      ∀ t ∈ db.teachers,
        (min_score ≤ (calculate_job_match_score t job).1 →
          ∀ r ∈ (run_matching_for_job db jid min_score).1.teacher_school_matches,
            r.teacher_id = t.id → r.job_id = some jid → min_score ≤ r.match_score) ∧
        ((calculate_job_match_score t job).1 < min_score →
          ∀ r ∈ (run_matching_for_job db jid min_score).1.teacher_school_matches,
            ¬(r.teacher_id = t.id ∧ r.job_id = some jid))) ∧
    (∀ (db : DB) (tid : Nat) (min_score : ℚ) (teacher : Teacher) (db' : DB) (cnt : Nat),
      db.teachers.find? (fun t => t.id == tid) = some teacher →
      run_matching_for_teacher_jobs db tid min_score = some (db', cnt) →
      ((db.jobs.filter (fun j => j.is_active && !(j.source == "manual".data))).map Job.id).Nodup →
      IdsOk db.teacher_school_matches db.next_id →
      JPairUnique db.teacher_school_matches →
      ∀ j ∈ db.jobs.filter (fun j => j.is_active && !(j.source == "manual".data)),
        (min_score ≤ (calculate_job_match_score teacher j).1 →
          ∀ r ∈ db'.teacher_school_matches, r.teacher_id = tid → r.job_id = some j.id →
            min_score ≤ r.match_score) ∧
        ((calculate_job_match_score teacher j).1 < min_score →
          pairRecsJ db'.teacher_school_matches tid j.id =
            pairRecsJ db.teacher_school_matches tid j.id)) := by
  refine ⟨?_, ?_, ?_, ?_⟩
  · -- candidate-centric school run
    intro db tid min_score teacher db' hf hrun hnd
    obtain ⟨hmem, _⟩ := run_teacher_mem hf hrun
    constructor
    · intro r hr hrt
      rcases hmem r hr with ⟨_, hne⟩ | ⟨_, _, _, _, s, _, _, hsc, hge⟩
      · exact absurd hrt hne
      · rw [hsc]
        exact hge
    · intro s hs hlt r hr hpair
      rcases hmem r hr with ⟨_, hne⟩ | ⟨_, _, _, _, s', hs', hsid', hsc', hge'⟩
      · exact hne hpair.1
      · have hid : s'.id = s.id := Option.some.inj (hsid'.symm.trans hpair.2)
        have hss : s' = s :=
          List.inj_on_of_nodup_map hnd hs' hs hid
        rw [hss] at hge'
        linarith
  · -- opportunity-centric school run
    intro db sid min_score school hf hnd t ht
    have hrw : (run_matching_for_school db sid min_score).1.teacher_school_matches =
        (db.teachers.foldl (schoolStep school sid min_score)
          (db.teacher_school_matches, db.next_id, 0)).1 := by
      unfold run_matching_for_school
      rw [hf]
    have hmain := schoolFold_main school sid min_score db.teachers
      (db.teacher_school_matches, db.next_id, 0) hnd ht
    constructor
    · intro hsc r hr hrt hrs
      rw [hrw] at hr
      have heq := (hmain.1 hsc).1 r
        (List.mem_filter.mpr ⟨hr, matchesSchoolPair_iff.mpr ⟨hrt, hrs⟩⟩)
      rw [heq]
      exact hsc
    · intro hlt r hr hpair
      rw [hrw] at hr
      have hnil := hmain.2 hlt
      have : r ∈ pairRecsS ((db.teachers.foldl (schoolStep school sid min_score)
          (db.teacher_school_matches, db.next_id, 0)).1) t.id sid :=
        List.mem_filter.mpr ⟨hr, matchesSchoolPair_iff.mpr hpair⟩
      rw [hnil] at this
      cases this
  · -- opportunity-centric job run
    intro db jid min_score job hf hnd hids huniq t ht
    have hrw : (run_matching_for_job db jid min_score).1.teacher_school_matches =
        (db.teachers.foldl (jobStepTeacher job jid min_score)
          (db.teacher_school_matches, db.next_id, 0)).1 := by
      unfold run_matching_for_job
      rw [hf]
    have hmain := jobFoldT_main job jid min_score db.teachers
      (db.teacher_school_matches, db.next_id, 0) hids huniq hnd ht
    constructor
    · intro hsc r hr hrt hrj
      rw [hrw] at hr
      have heq := (hmain.1 hsc).1 r
        (List.mem_filter.mpr ⟨hr, matchesJobPair_iff.mpr ⟨hrt, hrj⟩⟩)
      rw [heq]
      exact hsc
    · intro hlt r hr hpair
      rw [hrw] at hr
      have hnil := hmain.2 hlt
      have : r ∈ pairRecsJ ((db.teachers.foldl (jobStepTeacher job jid min_score)
          (db.teacher_school_matches, db.next_id, 0)).1) t.id jid :=
        List.mem_filter.mpr ⟨hr, matchesJobPair_iff.mpr hpair⟩
      rw [hnil] at this
      cases this
  · -- candidate-centric job run
    intro db tid min_score teacher db' cnt hf hrun hnd hids huniq j hj
    unfold run_matching_for_teacher_jobs at hrun
    rw [hf] at hrun
    dsimp only at hrun
    have hpair := Option.some.inj hrun
    rw [Prod.mk.injEq] at hpair
    obtain ⟨hdb', _⟩ := hpair
    have hmain := jobsFoldJ_main teacher tid min_score
      (db.jobs.filter (fun j => j.is_active && !(j.source == "manual".data)))
      (db.teacher_school_matches, db.next_id, 0) hids huniq hnd hj
    constructor
    · intro hsc r hr hrt hrj
      rw [← hdb'] at hr
      dsimp only at hr
      have heq := hmain.1 hsc r
        (List.mem_filter.mpr ⟨hr, matchesJobPair_iff.mpr ⟨hrt, hrj⟩⟩)
      rw [heq]
      exact hsc
    · intro hlt
      rw [← hdb']
      exact hmain.2 hlt

/-- Closed witness for C1's conditional parts, via the fourth conjunct at the
concrete store `exDB1` with threshold 50: the below-threshold pair
(teacher 1, job 9) keeps exactly its prior record set across the run. -/
theorem claim_C1_witness :
    pairRecsJ exDB1'.teacher_school_matches 1 9 =
      pairRecsJ exDB1.teacher_school_matches 1 9 :=
  (claim_C1.2.2.2 exDB1 1 50 exTeacher1 exDB1' 1 rfl exDB1_run (by decide)
    ⟨by decide, by decide⟩
    (by
      intro tid jid m hm m' hm' hp hp'
      simp only [exDB1, List.mem_singleton] at hm hm'
      rw [hm, hm'])
    exJob9 (by decide)).2
    (by rw [exJob9_score]; norm_num)

/-! ### Claim C2 — preservation of `is_submitted` and `role_name` -/

/-- C2 counterexample: `run_matching_for_teacher` deletes and re-inserts, so
even though the pair (teacher 1, school 7) clears the threshold again
(min_score = 0 and scores are non-negative), the previously submitted record's
`is_submitted`/`role_name` are reset to the inserted defaults. -/
theorem claim_C2_counterexample :
    exRecS ∈ exDBS.teacher_school_matches ∧ exRecS.is_submitted = true ∧
    exRecS.teacher_id = 1 ∧ exRecS.school_id = some 7 ∧
    0 ≤ (calculate_match_score exTeacher1 exSchool7).1 ∧
    (run_matching_for_teacher exDBS 1 0).map
      (fun d => d.teacher_school_matches.map
        (fun r => (r.teacher_id, r.school_id, r.is_submitted, r.role_name))) =
      some [(1, some 7, false, none)] := by
  have h0 := (calculate_match_score_bounds exTeacher1 exSchool7).1
  refine ⟨List.mem_singleton.mpr rfl, rfl, rfl, rfl, h0, ?_⟩
  unfold run_matching_for_teacher
  rw [show exDBS.teachers.find? (fun t => t.id == 1) = some exTeacher1 from rfl]
  dsimp only
  rw [show exDBS.schools.filter (fun s => s.is_active) = [exSchool7] from rfl]
  rw [show ([exSchool7].map (fun s => (s, calculate_match_score exTeacher1 s))) =
    [(exSchool7, calculate_match_score exTeacher1 exSchool7)] from rfl]
  rw [List.filter_cons, if_pos (decide_eq_true h0), List.filter_nil]
  rw [show sortByScoreDesc (fun p => p.2.1)
      [(exSchool7, calculate_match_score exTeacher1 exSchool7)] =
    [(exSchool7, calculate_match_score exTeacher1 exSchool7)] from rfl]
  rw [show exDBS.teacher_school_matches.filter (fun m => !(m.teacher_id == 1)) = [] from rfl]
  rw [List.foldl_cons, List.foldl_nil]
  rfl

/-- C2 (amended): in the opportunity-centric runs (`run_matching_for_school`,
`run_matching_for_job`), a pair that again clears the threshold keeps its
record's `is_submitted` and `role_name` while only score and reasons are
rewritten; the candidate-centric `run_matching_for_teacher`, by contrast,
deletes and re-inserts, so every surviving record of the candidate has
`is_submitted = false` and `role_name = none`. -/
theorem claim_C2 :
    (∀ (db : DB) (sid : Nat) (min_score : ℚ) (school : School),
      db.schools.find? (fun s => s.id == sid && s.is_active) = some school →
      (db.teachers.map Teacher.id).Nodup →
      ∀ t ∈ db.teachers,
        min_score ≤ (calculate_match_score t school).1 →
        ∀ m0 ∈ db.teacher_school_matches, m0.teacher_id = t.id → m0.school_id = some sid →
          ∃ r ∈ (run_matching_for_school db sid min_score).1.teacher_school_matches,
            r.teacher_id = t.id ∧ r.school_id = some sid ∧
            r.is_submitted = m0.is_submitted ∧ r.role_name = m0.role_name ∧
            r.match_score = (calculate_match_score t school).1) ∧
    (∀ (db : DB) (jid : Nat) (min_score : ℚ) (job : Job),
      db.jobs.find? (fun j => j.id == jid && j.is_active) = some job →
      (db.teachers.map Teacher.id).Nodup →
      IdsOk db.teacher_school_matches db.next_id →
      JPairUnique db.teacher_school_matches →
      ∀ t ∈ db.teachers,
        min_score ≤ (calculate_job_match_score t job).1 →
        ∀ m0 ∈ db.teacher_school_matches, m0.teacher_id = t.id → m0.job_id = some jid →
          ∃ r ∈ (run_matching_for_job db jid min_score).1.teacher_school_matches,
            r.teacher_id = t.id ∧ r.job_id = some jid ∧
            r.is_submitted = m0.is_submitted ∧ r.role_name = m0.role_name ∧
            r.match_score = (calculate_job_match_score t job).1) ∧
    (∀ (db : DB) (tid : Nat) (min_score : ℚ) (teacher : Teacher) (db' : DB),
      db.teachers.find? (fun t => t.id == tid) = some teacher →
      run_matching_for_teacher db tid min_score = some db' →
      ∀ r ∈ db'.teacher_school_matches, r.teacher_id = tid →
        r.is_submitted = false ∧ r.role_name = none) := by
  refine ⟨?_, ?_, ?_⟩
  · intro db sid min_score school hf hnd t ht hsc m0 hm0 hm0t hm0s
    have hrw : (run_matching_for_school db sid min_score).1.teacher_school_matches =
        (db.teachers.foldl (schoolStep school sid min_score)
          (db.teacher_school_matches, db.next_id, 0)).1 := by
      unfold run_matching_for_school
      rw [hf]
    have hmain := schoolFold_main school sid min_score db.teachers
      (db.teacher_school_matches, db.next_id, 0) hnd ht
    obtain ⟨r, hr, hsub, hrole, hscore⟩ := (hmain.1 hsc).2 m0
      (List.mem_filter.mpr ⟨hm0, matchesSchoolPair_iff.mpr ⟨hm0t, hm0s⟩⟩)
    have hrm := List.mem_filter.mp hr
    have hpair := matchesSchoolPair_iff.mp hrm.2
    exact ⟨r, by rw [hrw]; exact hrm.1, hpair.1, hpair.2, hsub, hrole, hscore⟩
  · intro db jid min_score job hf hnd hids huniq t ht hsc m0 hm0 hm0t hm0j
    have hrw : (run_matching_for_job db jid min_score).1.teacher_school_matches =
        (db.teachers.foldl (jobStepTeacher job jid min_score)
          (db.teacher_school_matches, db.next_id, 0)).1 := by
      unfold run_matching_for_job
      rw [hf]
    have hmain := jobFoldT_main job jid min_score db.teachers
      (db.teacher_school_matches, db.next_id, 0) hids huniq hnd ht
    obtain ⟨r, hr, hsub, hrole, hscore⟩ := (hmain.1 hsc).2 m0
      (List.mem_filter.mpr ⟨hm0, matchesJobPair_iff.mpr ⟨hm0t, hm0j⟩⟩)
    have hrm := List.mem_filter.mp hr
    have hpair := matchesJobPair_iff.mp hrm.2
    exact ⟨r, by rw [hrw]; exact hrm.1, hpair.1, hpair.2, hsub, hrole, hscore⟩
  · intro db tid min_score teacher db' hf hrun r hr hrt
    obtain ⟨hmem, _⟩ := run_teacher_mem hf hrun
    rcases hmem r hr with ⟨_, hne⟩ | ⟨_, _, h3, h4, _⟩
    · exact absurd hrt hne
    · exact ⟨h3, h4⟩

/-- Closed witness for C2, via the school-run part on `exDBS` with threshold
0: the submitted record of the re-qualifying pair survives with its
`is_submitted`/`role_name` intact and only the score rewritten. -/
theorem claim_C2_witness :
    ∃ r ∈ (run_matching_for_school exDBS 7 0).1.teacher_school_matches,
      r.teacher_id = 1 ∧ r.school_id = some 7 ∧
      r.is_submitted = exRecS.is_submitted ∧ r.role_name = exRecS.role_name ∧
      r.match_score = (calculate_match_score exTeacher1 exSchool7).1 :=
  claim_C2.1 exDBS 7 0 exSchool7 rfl (by decide) exTeacher1 (List.mem_singleton.mpr rfl)
    (calculate_match_score_bounds exTeacher1 exSchool7).1
    exRecS (List.mem_singleton.mpr rfl) rfl rfl

/-! ### Claim C3 — what the candidate-centric run deletes -/

/-- C3 counterexample: `run_matching_for_teacher` deletes ALL of the
candidate's match rows, not only the internal-school ones: teacher 1's
external-job record (pair (1, job 9)) is gone after a run with no schools,
while teacher 2's record survives. -/
theorem claim_C3_counterexample :
    exDB3.teacher_school_matches.map (fun r => (r.teacher_id, r.job_id)) =
      [(1, some 9), (2, some 9)] ∧
    (run_matching_for_teacher exDB3 1 50).map
      (fun d => d.teacher_school_matches.map (fun r => (r.teacher_id, r.job_id))) =
      some [(2, some 9)] := by
  exact ⟨rfl, rfl⟩

/-- C3 (amended): a successful `run_matching_for_teacher` replaces the
candidate's ENTIRE match set, of every kind: afterwards each of the
candidate's records is a freshly inserted internal-school record of a
qualifying pair (so the candidate's external-job records are deleted, not
left untouched); conversely every active school whose recomputed pair clears
the threshold does get an inserted record, carrying the recomputed score and
the inserted defaults; and records of other candidates are exactly
preserved. -/
theorem claim_C3 :
    ∀ (db : DB) (tid : Nat) (min_score : ℚ) (teacher : Teacher) (db' : DB),
      db.teachers.find? (fun t => t.id == tid) = some teacher →
      run_matching_for_teacher db tid min_score = some db' →
      (∀ r ∈ db'.teacher_school_matches, r.teacher_id = tid →
        min_score ≤ r.match_score ∧ r.job_id = none ∧
        ∃ s ∈ db.schools.filter (fun s => s.is_active), r.school_id = some s.id) ∧
      (∀ r : MatchRecord, r.teacher_id ≠ tid →
        (r ∈ db'.teacher_school_matches ↔ r ∈ db.teacher_school_matches)) ∧
      (∀ s ∈ db.schools.filter (fun s => s.is_active),
        min_score ≤ (calculate_match_score teacher s).1 →
        ∃ r ∈ db'.teacher_school_matches,
          r.teacher_id = tid ∧ r.school_id = some s.id ∧
          r.match_score = (calculate_match_score teacher s).1 ∧
          r.job_id = none ∧ r.is_submitted = false ∧ r.role_name = none) := by
  intro db tid min_score teacher db' hf hrun
  obtain ⟨hmem, hkeep⟩ := run_teacher_mem hf hrun
  refine ⟨?_, ?_, run_teacher_complete hf hrun⟩
  · intro r hr hrt
    rcases hmem r hr with ⟨_, hne⟩ | ⟨_, h2, _, _, s, hs, hsid, hsc, hge⟩
    · exact absurd hrt hne
    · exact ⟨by rw [hsc]; exact hge, h2, s, hs, hsid⟩
  · intro r hne
    constructor
    · intro hr
      rcases hmem r hr with ⟨hin, _⟩ | ⟨hrt, _⟩
      · exact hin
      · exact absurd hrt hne
    · intro hr
      exact hkeep r hr hne

/-- The concrete result of `run_matching_for_teacher exDBS 1 0`: the prior
(submitted) pair row replaced by a fresh insertion for the qualifying pair
(teacher 1, school 7). -/
def exDBS' : DB :=
  ⟨[exTeacher1], [exSchool7], [],
    [newSchoolMatch 4 1 7 (calculate_match_score exTeacher1 exSchool7).1
      (calculate_match_score exTeacher1 exSchool7).2], [], 5⟩

theorem exDBS_run : run_matching_for_teacher exDBS 1 0 = some exDBS' := by
  have h0 := (calculate_match_score_bounds exTeacher1 exSchool7).1
  unfold run_matching_for_teacher
  rw [show exDBS.teachers.find? (fun t => t.id == 1) = some exTeacher1 from rfl]
  dsimp only
  rw [show exDBS.schools.filter (fun s => s.is_active) = [exSchool7] from rfl]
  rw [show ([exSchool7].map (fun s => (s, calculate_match_score exTeacher1 s))) =
    [(exSchool7, calculate_match_score exTeacher1 exSchool7)] from rfl]
  rw [List.filter_cons, if_pos (decide_eq_true h0), List.filter_nil]
  rw [show sortByScoreDesc (fun p => p.2.1)
      [(exSchool7, calculate_match_score exTeacher1 exSchool7)] =
    [(exSchool7, calculate_match_score exTeacher1 exSchool7)] from rfl]
  rw [show exDBS.teacher_school_matches.filter (fun m => !(m.teacher_id == 1)) = [] from rfl]
  rw [List.foldl_cons, List.foldl_nil]
  rfl

/-- Closed witness for C3: applying the amended claim at `exDBS` with
threshold 0 exhibits the inserted record of the qualifying pair
(teacher 1, school 7) in the run's result. -/
theorem claim_C3_witness :
    ∃ r ∈ exDBS'.teacher_school_matches,
      r.teacher_id = 1 ∧ r.school_id = some 7 ∧
      r.match_score = (calculate_match_score exTeacher1 exSchool7).1 ∧
      r.job_id = none ∧ r.is_submitted = false ∧ r.role_name = none :=
  (claim_C3 exDBS 1 0 exTeacher1 exDBS' rfl exDBS_run).2.2 exSchool7 (by decide)
    (calculate_match_score_bounds exTeacher1 exSchool7).1

/-! ### Fallible persistence (claim C8)

The batch loops of `run_matching_for_school` / `run_matching_for_job` contain
no try/except: any store call that raises propagates out of the loop.  The
store is modelled with a failure oracle `failAt`, indexed by the write-call
sequence number; a raised write leaves the store untouched and, in the
source, aborts the loop.  (The job loop's existence-check read is modelled as
infallible; the claim is about upsert/delete calls.) -/

structure FWorld where
  ms : List MatchRecord
  next_id : Nat
  clock : Nat
  failAt : Nat → Bool

def attemptWrite (w : FWorld) (f : List MatchRecord × Nat → List MatchRecord × Nat) :
    FWorld × Bool :=
  if w.failAt w.clock then ({ w with clock := w.clock + 1 }, false)
  else
    ({ ms := (f (w.ms, w.next_id)).1, next_id := (f (w.ms, w.next_id)).2,
       clock := w.clock + 1, failAt := w.failAt }, true)

/-- `run_matching_for_school`'s loop with a fallible store: one write call per
pair (the upsert or the delete); a raising call propagates, aborting the loop
with the store in its prior state. -/
def schoolLoopF (school : School) (sid : Nat) (min_score : ℚ) :
    List Teacher → FWorld → Nat → FWorld × Except Unit Nat
  | [], w, cnt => (w, .ok cnt)
  | t :: ts, w, cnt =>
    let r := calculate_match_score t school
    if min_score ≤ r.1 then
      match attemptWrite w (fun p => schoolUpsert p.1 p.2 t.id sid r.1 r.2) with
      | (w', true) => schoolLoopF school sid min_score ts w' (cnt + 1)
      | (w', false) => (w', .error ())
    else
      match attemptWrite w
          (fun p => (p.1.filter (fun m => !(matchesSchoolPair t.id sid m)), p.2)) with
      | (w', true) => schoolLoopF school sid min_score ts w' cnt
      | (w', false) => (w', .error ())

def run_matching_for_school_f (db : DB) (school_id : Nat) (min_score : ℚ)
    (failAt : Nat → Bool) : FWorld × Except Unit Nat :=
  match db.schools.find? (fun s => s.id == school_id && s.is_active) with
  | none => (⟨db.teacher_school_matches, db.next_id, 0, failAt⟩, .ok 0)
  | some school =>
    schoolLoopF school school_id min_score db.teachers
      ⟨db.teacher_school_matches, db.next_id, 0, failAt⟩ 0

/-- `run_matching_for_job`'s loop with a fallible store, same conventions. -/
def jobLoopF (job : Job) (jid : Nat) (min_score : ℚ) :
    List Teacher → FWorld → Nat → FWorld × Except Unit Nat
  | [], w, cnt => (w, .ok cnt)
  | t :: ts, w, cnt =>
    let r := calculate_job_match_score t job
    if min_score ≤ r.1 then
      match attemptWrite w (fun p => jobUpsert p.1 p.2 t.id jid r.1 r.2) with
      | (w', true) => jobLoopF job jid min_score ts w' (cnt + 1)
      | (w', false) => (w', .error ())
    else
      match attemptWrite w
          (fun p => (p.1.filter (fun m => !(matchesJobPair t.id jid m)), p.2)) with
      | (w', true) => jobLoopF job jid min_score ts w' cnt
      | (w', false) => (w', .error ())

def run_matching_for_job_f (db : DB) (job_id : Nat) (min_score : ℚ)
    (failAt : Nat → Bool) : FWorld × Except Unit Nat :=
  match db.jobs.find? (fun j => j.id == job_id && j.is_active) with
  | none => (⟨db.teacher_school_matches, db.next_id, 0, failAt⟩, .ok 0)
  | some job =>
    jobLoopF job job_id min_score db.teachers
      ⟨db.teacher_school_matches, db.next_id, 0, failAt⟩ 0

theorem attemptWrite_ok {w : FWorld} {f : List MatchRecord × Nat → List MatchRecord × Nat}
    (h : w.failAt w.clock = false) :
    attemptWrite w f =
      ({ ms := (f (w.ms, w.next_id)).1, next_id := (f (w.ms, w.next_id)).2,
         clock := w.clock + 1, failAt := w.failAt }, true) := by
  unfold attemptWrite
  rw [h]
  simp

def exDBS2 : DB := ⟨[exTeacher1, exTeacher2], [exSchool7], [], [], [], 10⟩

/-- C8 counterexample: in `run_matching_for_school`, a failing first per-pair
write aborts the whole batch — the error propagates (result `.error`), the
store still holds no record for the second, qualifying pair, and no further
write is even attempted (`clock = 1` after two pairs were due). -/
theorem claim_C8_counterexample :
    0 ≤ (calculate_match_score exTeacher1 exSchool7).1 ∧
    0 ≤ (calculate_match_score exTeacher2 exSchool7).1 ∧
    (run_matching_for_school_f exDBS2 7 0 (fun n => n == 0)).2 = .error () ∧
    (run_matching_for_school_f exDBS2 7 0 (fun n => n == 0)).1.ms = [] ∧
    (run_matching_for_school_f exDBS2 7 0 (fun n => n == 0)).1.clock = 1 := by
  have h1 := (calculate_match_score_bounds exTeacher1 exSchool7).1
  have h2 := (calculate_match_score_bounds exTeacher2 exSchool7).1
  have hrun : run_matching_for_school_f exDBS2 7 0 (fun n => n == 0) =
      (⟨[], 10, 1, fun n => n == 0⟩, .error ()) := by
    unfold run_matching_for_school_f
    rw [show exDBS2.schools.find? (fun s => s.id == 7 && s.is_active) =
      some exSchool7 from rfl]
    rw [show exDBS2.teachers = exTeacher1 :: [exTeacher2] from rfl]
    unfold schoolLoopF
    dsimp only
    rw [if_pos h1]
    rfl
  exact ⟨h1, h2, by rw [hrun], by rw [hrun], by rw [hrun]⟩

/-- C8 (amended): the per-pair writes of the opportunity-centric batches are
NOT caught: a failing upsert or delete aborts the run at that pair.  The
failing write leaves the store in its prior state, no later pair is scored or
written, and the error propagates out of the run (in the deployed code it is
caught only by the background-task wrapper around the whole run).  When no
write fails, the fallible runs coincide with the pure ones. -/
theorem claim_C8 :
    (∀ (school : School) (sid : Nat) (min_score : ℚ) (t : Teacher) (ts : List Teacher)
      (w : FWorld) (cnt : Nat), w.failAt w.clock = true →
      schoolLoopF school sid min_score (t :: ts) w cnt =
        ({ w with clock := w.clock + 1 }, .error ())) ∧
    (∀ (job : Job) (jid : Nat) (min_score : ℚ) (t : Teacher) (ts : List Teacher)
      (w : FWorld) (cnt : Nat), w.failAt w.clock = true →
      jobLoopF job jid min_score (t :: ts) w cnt =
        ({ w with clock := w.clock + 1 }, .error ())) ∧
    (∀ (school : School) (sid : Nat) (min_score : ℚ) (ts : List Teacher)
      (w : FWorld) (cnt : Nat), (∀ n, w.failAt n = false) →
      schoolLoopF school sid min_score ts w cnt =
        (⟨(ts.foldl (schoolStep school sid min_score) (w.ms, w.next_id, cnt)).1,
          (ts.foldl (schoolStep school sid min_score) (w.ms, w.next_id, cnt)).2.1,
          w.clock + ts.length, w.failAt⟩,
         .ok (ts.foldl (schoolStep school sid min_score) (w.ms, w.next_id, cnt)).2.2)) ∧
    (∀ (job : Job) (jid : Nat) (min_score : ℚ) (ts : List Teacher)
      (w : FWorld) (cnt : Nat), (∀ n, w.failAt n = false) →
      jobLoopF job jid min_score ts w cnt =
        (⟨(ts.foldl (jobStepTeacher job jid min_score) (w.ms, w.next_id, cnt)).1,
          (ts.foldl (jobStepTeacher job jid min_score) (w.ms, w.next_id, cnt)).2.1,
          w.clock + ts.length, w.failAt⟩,
         .ok (ts.foldl (jobStepTeacher job jid min_score) (w.ms, w.next_id, cnt)).2.2)) := by
  refine ⟨?_, ?_, ?_, ?_⟩
  · intro school sid min_score t ts w cnt hfail
    unfold schoolLoopF
    dsimp only
    unfold attemptWrite
    rw [if_pos hfail]
    split_ifs <;> rfl
  · intro job jid min_score t ts w cnt hfail
    unfold jobLoopF
    dsimp only
    unfold attemptWrite
    rw [if_pos hfail]
    split_ifs <;> rfl
  · intro school sid min_score ts
    induction ts with
    | nil =>
      intro w cnt hok
      unfold schoolLoopF
      rfl
    | cons t ts ih =>
      intro w cnt hok
      unfold schoolLoopF
      dsimp only
      rw [attemptWrite_ok (hok w.clock), attemptWrite_ok (hok w.clock)]
      dsimp only
      rw [List.foldl_cons]
      split_ifs with hs
      · rw [show schoolStep school sid min_score (w.ms, w.next_id, cnt) t =
            ((schoolUpsert w.ms w.next_id t.id sid (calculate_match_score t school).1
              (calculate_match_score t school).2).1,
             (schoolUpsert w.ms w.next_id t.id sid (calculate_match_score t school).1
              (calculate_match_score t school).2).2, cnt + 1) from by
          unfold schoolStep
          dsimp only
          rw [if_pos hs]]
        rw [ih _ _ (by intro n; exact hok n)]
        simp only [Prod.mk.injEq, FWorld.mk.injEq, List.length_cons, and_true, true_and]
        omega
      · rw [show schoolStep school sid min_score (w.ms, w.next_id, cnt) t =
            (w.ms.filter (fun m => !(matchesSchoolPair t.id sid m)), w.next_id, cnt) from by
          unfold schoolStep
          dsimp only
          rw [if_neg hs]]
        rw [ih _ _ (by intro n; exact hok n)]
        simp only [Prod.mk.injEq, FWorld.mk.injEq, List.length_cons, and_true, true_and]
        omega
  · intro job jid min_score ts
    induction ts with
    | nil =>
      intro w cnt hok
      unfold jobLoopF
      rfl
    | cons t ts ih =>
      intro w cnt hok
      unfold jobLoopF
      dsimp only
      rw [attemptWrite_ok (hok w.clock), attemptWrite_ok (hok w.clock)]
      dsimp only
      rw [List.foldl_cons]
      split_ifs with hs
      · rw [show jobStepTeacher job jid min_score (w.ms, w.next_id, cnt) t =
            ((jobUpsert w.ms w.next_id t.id jid (calculate_job_match_score t job).1
              (calculate_job_match_score t job).2).1,
             (jobUpsert w.ms w.next_id t.id jid (calculate_job_match_score t job).1
              (calculate_job_match_score t job).2).2, cnt + 1) from by
          unfold jobStepTeacher
          dsimp only
          rw [if_pos hs]]
        rw [ih _ _ (by intro n; exact hok n)]
        simp only [Prod.mk.injEq, FWorld.mk.injEq, List.length_cons, and_true, true_and]
        omega
      · rw [show jobStepTeacher job jid min_score (w.ms, w.next_id, cnt) t =
            (w.ms.filter (fun m => !(matchesJobPair t.id jid m)), w.next_id, cnt) from by
          unfold jobStepTeacher
          dsimp only
          rw [if_neg hs]]
        rw [ih _ _ (by intro n; exact hok n)]
        simp only [Prod.mk.injEq, FWorld.mk.injEq, List.length_cons, and_true, true_and]
        omega

/-- Closed witness for C8: at a concrete failing store the school batch
aborts immediately with the store unchanged. -/
theorem claim_C8_witness :
    schoolLoopF exSchool7 7 0 [exTeacher1] ⟨[], 10, 0, fun _ => true⟩ 0 =
      (⟨[], 10, 1, fun _ => true⟩, .error ()) :=
  claim_C8.1 exSchool7 7 0 exTeacher1 [] ⟨[], 10, 0, fun _ => true⟩ 0 rfl

/-! ### Aggregator / access gate (`get_teacher_all_matches`, `GET /matching/preview`) -/

inductive MatchKind where
  | school
  | job
deriving DecidableEq

/-- One entry of the unified match view returned to candidates.  The school
branch fills only the anonymous school display fields; the job branch fills
the job display fields.  (Job pass-through columns the code copies verbatim
and never branches on are restricted to the modelled subset.) -/
structure UnifiedMatch where
  id : Nat
  kind : MatchKind
  city : Option (List Char)
  province : Option (List Char)
  school_type : Option (List Char)
  age_groups : List (List Char)
  subjects : Option (List (List Char))
  salary_range : Option (List Char)
  match_score : ℚ
  match_reasons : List Reason
  is_submitted : Bool
  role_name : Option (List Char)
  expiry_date : Option (List Char)
  school_id : Option Nat
  job_id : Option Nat
  title : Option (List Char)
  company : Option (List Char)
  external_url : Option (List Char)
  source : List Char
deriving DecidableEq

/-- The `schools(...)` join: null when the row's `school_id` is null or
dangling. -/
def findSchool (db : DB) (sid : Option Nat) : Option School :=
  sid.bind (fun i => db.schools.find? (fun s => s.id == i))

/-- The `jobs(...)` join. -/
def findJob (db : DB) (jid : Option Nat) : Option Job :=
  jid.bind (fun i => db.jobs.find? (fun j => j.id == i))

/-- The `teacher_school_applications(expiry_date, role_name)` join (first
related row, as the code takes `app_data[0]`). -/
def findApp (db : DB) (mid : Nat) : Option ApplicationRow :=
  db.applications.find? (fun a => a.match_id == mid)

/-- The role-name resolution: prefer the application's role name, falling
back to the match row's whenever it is missing or empty (Python truthiness). -/
def resolveRoleName (app : Option ApplicationRow) (m : MatchRecord) : Option (List Char) :=
  let rn0 := match app with
    | some a => a.role_name
    | none => m.role_name
  if rn0 = none ∨ rn0 = some [] then m.role_name else rn0

/-- The per-row transform of `get_teacher_all_matches`: a school entry when
the school snapshot resolved, else a job entry when the job snapshot
resolved, else nothing — the row is silently dropped. -/
def unifyMatch (db : DB) (m : MatchRecord) : Option UnifiedMatch :=
  let app := findApp db m.id
  let expiry := match app with
    | some a => a.expiry_date
    | none => none
  let role_name := resolveRoleName app m
  match findSchool db m.school_id with
  | some s =>
    some { id := m.id, kind := .school, city := some s.city, province := some s.province,
           school_type := some s.school_type, age_groups := s.age_groups, subjects := none,
           salary_range := some s.salary_range, match_score := m.match_score,
           match_reasons := m.match_reasons, is_submitted := m.is_submitted,
           role_name := role_name, expiry_date := expiry,
           school_id := m.school_id, job_id := none,
           title := none, company := none, external_url := none, source := "manual".data }
  | none =>
    match findJob db m.job_id with
    | some j =>
      let jrole := if role_name = none ∨ role_name = some [] then some j.title else role_name
      let jexpiry := match expiry with
        | some e => some e
        | none => j.application_deadline
      some { id := m.id, kind := .job, city := some j.city, province := some j.province,
             school_type := some j.school_type, age_groups := j.age_groups,
             subjects := some j.subjects, salary_range := some j.salary,
             match_score := m.match_score, match_reasons := m.match_reasons,
             is_submitted := m.is_submitted, role_name := jrole, expiry_date := jexpiry,
             school_id := none, job_id := m.job_id,
             title := some j.title, company := some j.company,
             external_url := some j.external_url, source := j.source }
    | none => none

/-- `get_teacher_all_matches`: the candidate's rows, score-descending, at most
`limit`, each joined and transformed; rows whose school and job references
both resolve to nothing are dropped by the transform. -/
def get_teacher_all_matches (db : DB) (teacher_id : Nat) (limit : Nat) : List UnifiedMatch :=
  ((sortByScoreDesc MatchRecord.match_score
    (db.teacher_school_matches.filter (fun m => m.teacher_id == teacher_id))).take
      limit).filterMap (unifyMatch db)

/-- `GET /matching/preview`: the full unified list for a paid candidate, its
first three entries (`matches[:3] if matches else []`) otherwise. -/
def get_preview_matches (db : DB) (teacher : Teacher) : List UnifiedMatch :=
  if teacher.has_paid then get_teacher_all_matches db teacher.id 50
  else
    let ms := get_teacher_all_matches db teacher.id 50
    if ms = [] then [] else ms.take 3

/-- Schools with their display name blanked; the aggregator's output must not
depend on it. -/
def eraseSchoolNames (db : DB) : DB :=
  { db with schools := db.schools.map (fun s => { s with name := [] }) }

theorem unifyMatch_erase (db : DB) (m : MatchRecord) :
    unifyMatch (eraseSchoolNames db) m = unifyMatch db m := by
  unfold unifyMatch
  have hj : findJob (eraseSchoolNames db) m.job_id = findJob db m.job_id := rfl
  have ha : findApp (eraseSchoolNames db) m.id = findApp db m.id := rfl
  have hs : findSchool (eraseSchoolNames db) m.school_id =
      (findSchool db m.school_id).map (fun s => { s with name := [] }) := by
    unfold findSchool eraseSchoolNames
    cases m.school_id with
    | none => rfl
    | some i =>
      dsimp only [Option.bind]
      rw [List.find?_map]
      rfl
  rw [hj, ha, hs]
  cases hsch : findSchool db m.school_id with
  | none => rfl
  | some s => rfl

theorem get_teacher_all_matches_erase (db : DB) (tid lim : Nat) :
    get_teacher_all_matches (eraseSchoolNames db) tid lim =
      get_teacher_all_matches db tid lim := by
  unfold get_teacher_all_matches
  rw [show (eraseSchoolNames db).teacher_school_matches = db.teacher_school_matches from rfl]
  rw [funext (unifyMatch_erase db)]

theorem length_insertByScoreDesc {α : Type} (f : α → ℚ) (x : α) (l : List α) :
    (insertByScoreDesc f x l).length = l.length + 1 := by
  induction l with
  | nil => rfl
  | cons y ys ih =>
    unfold insertByScoreDesc
    split_ifs <;> simp [ih]

theorem length_sortByScoreDesc {α : Type} (f : α → ℚ) (l : List α) :
    (sortByScoreDesc f l).length = l.length := by
  induction l with
  | nil => rfl
  | cons y ys ih =>
    unfold sortByScoreDesc
    rw [length_insertByScoreDesc, ih, List.length_cons]

/-! ### Claim C6 — the preview gate -/

/-- C6 counterexample: the preview entry of an internal-school match carries
the `school_id` reference — the institution's identity — alongside the
allowed display fields, so the entries do not expose "only" the anonymous
fields. -/
theorem claim_C6_counterexample :
    exTeacher1.has_paid = false ∧ exSchool7.id = 7 ∧
    (get_preview_matches exDBS exTeacher1).map (fun e => (e.kind, e.school_id)) =
      [(MatchKind.school, some 7)] :=
  ⟨rfl, rfl, rfl⟩

/-- C6 (amended): the unpaid preview is exactly the first 3 entries of the
same score-descending list a paid candidate receives, with identical fields
per entry; school entries never carry the institution's name (the view is
invariant under blanking every school name) and never any job/identity text
field — but each school entry does include the `school_id` reference to the
institution. -/
theorem claim_C6 :
    (∀ (db : DB) (t : Teacher), t.has_paid = false →
      get_preview_matches db t = (get_teacher_all_matches db t.id 50).take 3) ∧
    (∀ (db : DB) (t : Teacher), t.has_paid = true →
      get_preview_matches db t = get_teacher_all_matches db t.id 50) ∧
    (∀ (db : DB) (tid lim : Nat),
      get_teacher_all_matches (eraseSchoolNames db) tid lim =
        get_teacher_all_matches db tid lim) ∧
    (∀ (db : DB) (tid lim : Nat), ∀ e ∈ get_teacher_all_matches db tid lim,
      e.kind = MatchKind.school →
      e.title = none ∧ e.company = none ∧ e.external_url = none ∧ e.job_id = none) := by
  refine ⟨?_, ?_, get_teacher_all_matches_erase, ?_⟩
  · intro db t h
    unfold get_preview_matches
    rw [if_neg (by rw [h]; exact Bool.false_ne_true)]
    dsimp only
    by_cases hm : get_teacher_all_matches db t.id 50 = []
    · rw [if_pos hm, hm, List.take_nil]
    · rw [if_neg hm]
  · intro db t h
    unfold get_preview_matches
    rw [if_pos h]
  · intro db tid lim e he hk
    unfold get_teacher_all_matches at he
    obtain ⟨m, _, hm⟩ := List.mem_filterMap.mp he
    unfold unifyMatch at hm
    cases hsch : findSchool db m.school_id with
    | some s =>
      rw [hsch] at hm
      obtain rfl := Option.some.inj hm.symm
      exact ⟨rfl, rfl, rfl, rfl⟩
    | none =>
      rw [hsch] at hm
      cases hjob : findJob db m.job_id with
      | some j =>
        rw [hjob] at hm
        obtain rfl := Option.some.inj hm.symm
        exact absurd hk (by simp)
      | none =>
        rw [hjob] at hm
        cases hm

/-- Closed witness for C6's conditional parts: the unpaid preview of
`exTeacher1` equals the 3-truncation of the full unified list. -/
theorem claim_C6_witness :
    get_preview_matches exDBS exTeacher1 =
      (get_teacher_all_matches exDBS exTeacher1.id 50).take 3 :=
  claim_C6.1 exDBS exTeacher1 rfl

/-! ### Claim C10 — rows with dangling references are dropped -/

/-- A match row whose school and job references both resolve to nothing. -/
def exRecX : MatchRecord := ⟨0, 1, some 77, some 99, 60, [], false, none⟩

def exDBX : DB := ⟨[exTeacher1], [], [], [exRecX], [], 1⟩

/-- C10: a stored MatchRecord contributes an entry to the aggregated view
only if its school or job join resolves; a row whose references both resolve
to nothing is silently omitted, so the returned list can be shorter than the
candidate's stored rows — concretely, a candidate with one dangling row gets
an empty list. -/
theorem claim_C10 :
    (∀ (db : DB) (m : MatchRecord),
      findSchool db m.school_id = none → findJob db m.job_id = none →
      unifyMatch db m = none) ∧
    (∀ (db : DB) (tid lim : Nat),
      (get_teacher_all_matches db tid lim).length ≤
        (db.teacher_school_matches.filter (fun m => m.teacher_id == tid)).length) ∧
    get_teacher_all_matches exDBX 1 50 = [] ∧
    (exDBX.teacher_school_matches.filter (fun m => m.teacher_id == 1)).length = 1 := by
  refine ⟨?_, ?_, rfl, rfl⟩
  · intro db m hs hj
    unfold unifyMatch
    rw [hs, hj]
  · intro db tid lim
    unfold get_teacher_all_matches
    have h1 := List.length_filterMap_le (unifyMatch db)
      ((sortByScoreDesc MatchRecord.match_score
        (db.teacher_school_matches.filter (fun m => m.teacher_id == tid))).take lim)
    have h2 : ((sortByScoreDesc MatchRecord.match_score
        (db.teacher_school_matches.filter (fun m => m.teacher_id == tid))).take lim).length ≤
        (sortByScoreDesc MatchRecord.match_score
          (db.teacher_school_matches.filter (fun m => m.teacher_id == tid))).length := by
      rw [List.length_take]
      exact min_le_right _ _
    have h3 := length_sortByScoreDesc MatchRecord.match_score
      (db.teacher_school_matches.filter (fun m => m.teacher_id == tid))
    omega

/-- Closed witness for C10's conditional part: the dangling row of `exDBX`
maps to no entry. -/
theorem claim_C10_witness : unifyMatch exDBX exRecX = none :=
  claim_C10.1 exDBX exRecX rfl rfl

/-! ### Trigger policy (claim C9): signup and profile update -/

/-- A unit of deferred work handed to the background-task facility. -/
inductive BgTask where
  | matchTeacher (teacher_id : Nat)
  | matchSchool (school_id : Nat)
deriving DecidableEq

inductive SignupResult where
  | created (teacher_id : Nat)
  | invalidUser
  | alreadyExists
deriving DecidableEq

structure SignupRequest where
  user_id : List Char
  preferred_location : List Char
  subject_specialty : List Char
  preferred_age_group : List Char
deriving DecidableEq

/-- `POST /signup/create-teacher-profile`: verify the auth user, reject a
duplicate profile, insert the teacher row (the store assigns `new_id`), try
to send the notification email (a failure is caught and only logged).  The
endpoint takes no `BackgroundTasks` and schedules nothing — its docstring
says matching is triggered later, on payment completion.  Returned: the new
store, the deferred tasks dispatched while handling the event, the result. -/
def create_teacher_profile_signup (db : DB) (authUserExists : Bool) (new_id : Nat)
    (req : SignupRequest) (emailFails : Bool) : DB × List BgTask × SignupResult :=
  if authUserExists = false then (db, [], .invalidUser)
  else if db.teachers.any (fun t => t.user_id == req.user_id) then (db, [], .alreadyExists)
  else
    let teacher : Teacher :=
      ⟨new_id, req.user_id, .str req.preferred_location, .str req.subject_specialty,
        .str req.preferred_age_group, .null, false, false⟩
    ({ db with teachers := db.teachers ++ [teacher] }, [], .created new_id)

/-- `PREFERENCE_FIELDS` of `PATCH /teachers/me`. -/
def PREFERENCE_FIELDS : List (List Char) :=
  ["subject_specialty".data, "preferred_location".data, "preferred_age_group".data,
   "years_experience".data]

/-- The dispatch decision of `update_teacher_profile`: schedule the
candidate-centric recompute iff a preference field was updated and a
background-task facility is present. -/
def update_teacher_profile_tasks (update_fields : List (List Char)) (teacher_id : Nat)
    (background_available : Bool) : List BgTask :=
  if (update_fields.any (fun f => PREFERENCE_FIELDS.contains f)) && background_available then
    [BgTask.matchTeacher teacher_id]
  else
    []

def exDB0 : DB := ⟨[], [], [], [], [], 0⟩

def exReq : SignupRequest :=
  ⟨"u9".data, "Beijing".data, "Math".data, "Primary".data⟩

/-- C9 counterexample: a successful signup dispatches NO deferred work at
all — in particular no candidate-centric recompute. -/
theorem claim_C9_counterexample :
    (create_teacher_profile_signup exDB0 true 1 exReq false).2.2 = .created 1 ∧
    (create_teacher_profile_signup exDB0 true 1 exReq false).2.1 = [] :=
  ⟨rfl, rfl⟩

/-- C9 (amended): profile creation through signup dispatches no deferred
recompute (whatever the outcome, and independently of the notification
email's failure); the candidate-centric full recompute is instead dispatched
by the profile-update endpoint, exactly when a preference field
({subject_specialty, preferred_location, preferred_age_group,
years_experience}) is updated and the background facility is present. -/
theorem claim_C9 :
    (∀ (db : DB) (auth : Bool) (new_id : Nat) (req : SignupRequest) (emailFails : Bool),
      (create_teacher_profile_signup db auth new_id req emailFails).2.1 = []) ∧
    (∀ (db : DB) (auth : Bool) (new_id : Nat) (req : SignupRequest) (e1 e2 : Bool),
      create_teacher_profile_signup db auth new_id req e1 =
        create_teacher_profile_signup db auth new_id req e2) ∧
    (∀ (fields : List (List Char)) (tid : Nat),
      (fields.any (fun f => PREFERENCE_FIELDS.contains f)) = true →
      update_teacher_profile_tasks fields tid true = [BgTask.matchTeacher tid]) ∧
    (∀ (fields : List (List Char)) (tid : Nat) (bg : Bool),
      (fields.any (fun f => PREFERENCE_FIELDS.contains f)) = false →
      update_teacher_profile_tasks fields tid bg = []) := by
  refine ⟨?_, ?_, ?_, ?_⟩
  · intro db auth new_id req emailFails
    unfold create_teacher_profile_signup
    split_ifs <;> rfl
  · intro db auth new_id req e1 e2
    rfl
  · intro fields tid h
    unfold update_teacher_profile_tasks
    rw [h]
    rfl
  · intro fields tid bg h
    unfold update_teacher_profile_tasks
    rw [h]
    rfl

/-- Closed witness for C9's conditional parts: updating `preferred_location`
dispatches exactly the candidate-centric recompute for teacher 3. -/
theorem claim_C9_witness :
    update_teacher_profile_tasks ["preferred_location".data] 3 true =
      [BgTask.matchTeacher 3] :=
  claim_C9.2.2.1 ["preferred_location".data] 3 (by decide)

end EduConnect
